import Mathlib

/-! Spinnaker client: retry, response validation, credentials, stage parsing.

A shallow embedding of `client/client.go`, `client/destroy_server_group_stage.go` and
`provider/provider.go`.

Conventions of the embedding.

* A Go result pair `(value, error)` is a Lean pair `Option value × Option GoError`
  (`none` is Go's `nil`), so that a value returned next to an error stays observable.
* `*http.Response` is a record whose body is a stream with explicit read state; a function
  that reads or closes the body through the pointer returns the updated record.
* Code outside the repository (`net/http`, `encoding/json`, `crypto/tls`, `encoding/base64`,
  `mapstructure`, `os.Getenv`) is passed in as a function argument.
* The caller-supplied request factory and the network are state-passing functions on an
  arbitrary world state `σ`.
* `DoWithRetry` additionally records what it does (factory call, executed request, sleep)
  in a chronological trace; the trace is instrumentation and influences no result.
* Logging (`log.Printf`, `log.Println`) has no effect on results and is omitted.
-/

namespace client

/-! ## Errors -/

/-- Modelled from the spec: the declaration of `SpinnakerError` is not among the sources; the
spec gives the error envelope as `{status: integer, message: string, ...}` and the code reads
its `Status` field. -/
structure SpinnakerError where
  Status : Int
  Message : String
deriving DecidableEq, Repr

/-- A Go `error` value, by dynamic type: a value made by `errors.New`, a `*SpinnakerError`,
or an error produced outside the repository (transport, JSON, TLS, request factory). -/
inductive GoError where
  | errorsNew (msg : String)
  | spinnakerError (e : SpinnakerError)
  | foreign (msg : String)
deriving DecidableEq, Repr

/-- The error value `ErrInvalidDecodeResponseParameter` of client.go, line 17. -/
def ErrInvalidDecodeResponseParameter : GoError :=
  GoError.errorsNew "nil interface provided to decodeResponse"

/-! ## Responses -/

/-- The body stream of an `http.Response`: the bytes not yet read, whether `Close` was
called, and how many times the stream was drained by `ioutil.ReadAll`. -/
structure Body where
  unread : String
  closed : Bool
  readAlls : Nat
deriving DecidableEq, Repr

/-- The part of `http.Response` the client looks at. -/
structure Response where
  StatusCode : Int
  Body : Body
deriving DecidableEq, Repr

/-- The call `ioutil.ReadAll(r.Body)` with its error dropped (`bodyBytes, _ := ...`): the bytes read
and the stream afterwards. A closed stream yields no bytes. -/
def readAll (b : Body) : String × Body :=
  if b.closed then ("", { b with readAlls := b.readAlls + 1 })
  else (b.unread, { b with unread := "", readAlls := b.readAlls + 1 })

/-- The call `resp.Body.Close()`. -/
def Response.close (r : Response) : Response :=
  { r with Body := { r.Body with closed := true } }

/-- What `(*http.Client).Do` returns: a response with a nil error, or an error (net/http
returns a nil response with it, except when a redirect policy fails). -/
inductive RoundTrip where
  | response (resp : Response)
  | failure (resp : Option Response) (err : GoError)
deriving DecidableEq, Repr

/-! ## Configuration and client -/

/-- The type `Auth` of client.go. -/
structure Auth where
  Enabled : Bool
  CertPath : String
  CertContent : String
  KeyPath : String
  KeyContent : String
  UserEmail : String
deriving DecidableEq, Repr

/-- The type `Config` of client.go. -/
structure Config where
  Address : String
  TerraformVersion : String
  Auth : Auth
deriving DecidableEq, Repr

/-- The type `tls.Config`, as far as `NewClient` fills it. -/
structure TLSConfig (Cert : Type) where
  Certificates : List Cert
  InsecureSkipVerify : Bool
deriving DecidableEq, Repr

/-- An `*http.Client`: `http.DefaultClient` has no TLS configuration of its own. -/
structure HttpClient (Cert : Type) where
  TLSClientConfig : Option (TLSConfig Cert)
deriving DecidableEq, Repr

/-- The default client `http.DefaultClient`. -/
def DefaultClient (Cert : Type) : HttpClient Cert := ⟨none⟩

/-- The type `Client` of client.go. -/
structure Client (Cert : Type) where
  Config : Config
  client : HttpClient Cert
deriving DecidableEq, Repr

/-- The functions of `encoding/base64` and `crypto/tls` used to load a key pair. -/
structure TLSLib (Cert : Type) where
  base64Decode : String → Except GoError String
  X509KeyPair : String → String → Except GoError Cert
  LoadX509KeyPair : String → String → Except GoError Cert

/-- The function `decodeBase64KeyPair` of client.go. -/
def decodeBase64KeyPair {Cert : Type} (tls : TLSLib Cert) (cert64 key64 : String) :
    Except GoError Cert :=
  match tls.base64Decode cert64 with
  | .error err => .error err
  | .ok certBytes =>
    match tls.base64Decode key64 with
    | .error err => .error err
    | .ok keyBytes => tls.X509KeyPair certBytes keyBytes

/-- The function `NewClient` of client.go; `.error err` is the return `nil, err`. -/
def NewClient {Cert : Type} (tls : TLSLib Cert) (config : Config) : Except GoError (Client Cert) :=
  if config.Auth.Enabled then
    match (if config.Auth.CertContent ≠ "" then
             decodeBase64KeyPair tls config.Auth.CertContent config.Auth.KeyContent
           else tls.LoadX509KeyPair config.Auth.CertPath config.Auth.KeyPath) with
    | .error err => .error err
    | .ok cert =>
      .ok { Config := config
            client := ⟨some { Certificates := [cert], InsecureSkipVerify := true }⟩ }
  else
    .ok { Config := config, client := DefaultClient Cert }

/-! ## Sending requests -/

/-- The call `json.Unmarshal(data, &target)`: the target after decoding and the error. -/
abbrev Unmarshal (T : Type) := String → T → T × Option GoError

/-- The network: what `client.client.Do(req)` returns and the world afterwards. -/
abbrev Net (σ Req Cert : Type) := HttpClient Cert → Req → σ → RoundTrip × σ

/-- The function `validateResponse` of client.go: the response after the call (its body is drained on the
error path) and the error. -/
def validateResponse (unmarshal : Unmarshal SpinnakerError) (r : Response) :
    Response × Option GoError :=
  if 200 ≤ r.StatusCode ∧ r.StatusCode ≤ 299 then (r, none)
  else
    match readAll r.Body with
    | (bodyString, body) =>
      match unmarshal bodyString ⟨0, ""⟩ with
      | (_, some err) => ({ r with Body := body }, some err)
      | (spinnakerError, none) =>
        ({ r with Body := body }, some (GoError.spinnakerError spinnakerError))

/-- The function `decodeResponse` of client.go: the response and the target after the call, and the
error. A nil interface `v` is `none`. -/
def decodeResponse {T : Type} (unmarshal : Unmarshal T) (r : Response) (v : Option T) :
    (Response × Option T) × Option GoError :=
  match v with
  | none => ((r, none), some ErrInvalidDecodeResponseParameter)
  | some t =>
    match readAll r.Body with
    | (bodyString, body) =>
      match unmarshal bodyString t with
      | (t1, err) => (({ r with Body := body }, some t1), err)

/-- The method `Client.do` of client.go (named `do'` because `do` is reserved). -/
def Client.do' {σ Req Cert : Type} (unmarshal : Unmarshal SpinnakerError) (net : Net σ Req Cert)
    (client : Client Cert) (req : Req) (w : σ) : (Option Response × Option GoError) × σ :=
  match net client.client req w with
  | (RoundTrip.failure resp err, w1) => ((resp, some err), w1)
  | (RoundTrip.response resp, w1) =>
    match validateResponse unmarshal resp with
    | (resp1, some err) => ((some resp1, some err), w1)
    | (resp1, none) => ((some resp1, none), w1)

/-- The method `Client.Do` of client.go; the deferred `resp.Body.Close()` runs on the success path. -/
def Client.Do {σ Req Cert : Type} (unmarshal : Unmarshal SpinnakerError) (net : Net σ Req Cert)
    (client : Client Cert) (req : Req) (w : σ) : (Option Response × Option GoError) × σ :=
  match client.do' unmarshal net req w with
  | ((resp, some err), w1) => ((resp, some err), w1)
  | ((resp, none), w1) => ((resp.map Response.close, none), w1)

/-- The method `Client.DoWithResponse` of client.go; the third component is the target `v` after the
call. -/
def Client.DoWithResponse {σ Req Cert T : Type} (unmarshal : Unmarshal SpinnakerError)
    (unmarshalT : Unmarshal T) (net : Net σ Req Cert) (client : Client Cert) (req : Req)
    (v : Option T) (w : σ) : (Option Response × Option GoError × Option T) × σ :=
  match client.do' unmarshal net req w with
  | ((resp, some err), w1) => ((resp, some err, v), w1)
  -- not reached: `do'` never returns a nil response with a nil error
  | ((none, none), w1) => ((none, none, v), w1)
  | ((some resp, none), w1) =>
    match decodeResponse unmarshalT resp v with
    | ((_, v1), some err) => ((none, some err, v1), w1)
    | ((resp1, v1), none) => ((some resp1.close, none, v1), w1)

/-! ## Retry -/

/-- The constant `time.Second`, in nanoseconds (the unit of `time.Duration`). -/
def Second : Nat := 1000000000

/-- One observable action of `DoWithRetry`: a call of the request factory with what it
returned, a call of `client.Do` with the request and what it returned, or a `time.Sleep`
with its duration in nanoseconds. -/
inductive Event (Req : Type) where
  | createReq (req : Req) (err : Option GoError)
  | execute (req : Req) (resp : Option Response) (err : Option GoError)
  | sleep (d : Nat)
deriving DecidableEq, Repr

/-- The outcome of one call of `DoWithRetry`: the returned pair, the world afterwards and
the actions taken, oldest first. -/
structure RetryRun (σ Req : Type) where
  resp : Option Response
  err : Option GoError
  world : σ
  trace : List (Event Req)

/-- The request factory `createReq func() (*http.Request, error)`. -/
abbrev Factory (σ Req : Type) := σ → (Req × Option GoError) × σ

/-- The `for respErr != nil && attempts < 5` loop of `DoWithRetry`, entered with the current
`attempts`, `resp`, `respErr`. The first argument is the loop variant `5 - attempts`; at `0`
the guard `attempts < 5` is false and the loop is left. -/
def DoWithRetry.loop {σ Req Cert : Type} (unmarshal : Unmarshal SpinnakerError)
    (net : Net σ Req Cert) (client : Client Cert) (createReq : Factory σ Req) :
    Nat → Nat → Option Response → Option GoError → σ → List (Event Req) → RetryRun σ Req
  | 0, _, resp, respErr, w, tr => ⟨resp, respErr, w, tr⟩
  | fuel + 1, attempts, resp, respErr, w, tr =>
    match respErr with
    | none => ⟨resp, none, w, tr⟩
    | some e =>
      if attempts < 5 then
        match e with
        | GoError.spinnakerError spinnakerError =>
          if spinnakerError.Status ≠ 400 then
            ⟨none, some (GoError.spinnakerError spinnakerError), w, tr⟩
          else
            match createReq w with
            | ((req, some err), w1) =>
              ⟨none, some err, w1,
                tr ++ [Event.sleep (attempts * attempts * Second), Event.createReq req (some err)]⟩
            | ((req, none), w1) =>
              match client.Do unmarshal net req w1 with
              | ((resp1, respErr1), w2) =>
                DoWithRetry.loop unmarshal net client createReq fuel (attempts + 1) resp1 respErr1
                  w2 (tr ++ [Event.sleep (attempts * attempts * Second),
                    Event.createReq req none, Event.execute req resp1 respErr1])
        | _ => ⟨none, some e, w, tr⟩
      else ⟨resp, some e, w, tr⟩

/-- The method `Client.DoWithRetry` of client.go. -/
def Client.DoWithRetry {σ Req Cert : Type} (unmarshal : Unmarshal SpinnakerError)
    (net : Net σ Req Cert) (client : Client Cert) (createReq : Factory σ Req) (w : σ) :
    RetryRun σ Req :=
  match createReq w with
  | ((req, some err), w1) => ⟨none, some err, w1, [Event.createReq req (some err)]⟩
  | ((req, none), w1) =>
    match client.Do unmarshal net req w1 with
    | ((resp, respErr), w2) =>
      DoWithRetry.loop unmarshal net client createReq 5 0 resp respErr w2
        [Event.createReq req none, Event.execute req resp respErr]

/-! ### Reading a trace -/

/-- Is the event a call of the request factory? -/
def Event.isCreateReq {Req : Type} : Event Req → Bool
  | Event.createReq _ _ => true
  | _ => false

/-- Is the event an executed request? -/
def Event.isExecute {Req : Type} : Event Req → Bool
  | Event.execute _ _ _ => true
  | _ => false

/-- The number of calls of the request factory in a trace. -/
def invocations {Req : Type} (tr : List (Event Req)) : Nat := tr.countP Event.isCreateReq

/-- The number of executed requests in a trace. -/
def executions {Req : Type} (tr : List (Event Req)) : Nat := tr.countP Event.isExecute

/-- The error a failed action produced: the factory's error or the error of `client.Do`. -/
def Event.failure {Req : Type} : Event Req → Option GoError
  | Event.createReq _ err => err
  | Event.execute _ _ err => err
  | Event.sleep _ => none

/-- Is the error a `*SpinnakerError` with status 400, the only one that is retried? -/
def GoError.isBadRequest : GoError → Bool
  | GoError.spinnakerError e => e.Status == 400
  | _ => false

/-- A failed action after which `DoWithRetry` does not retry: the factory failed, or the
request failed with anything but a `*SpinnakerError` of status 400. -/
def Event.isFatal {Req : Type} : Event Req → Bool
  | Event.createReq _ (some _) => true
  | Event.execute _ _ (some e) => !e.isBadRequest
  | _ => false

/-- Shape of a trace: every factory call but the first comes right after a sleep of
`(n - 1)² s`, where `n` is the number of factory calls before it. -/
def SleepsBeforeCalls {Req : Type} (tr : List (Event Req)) : Prop :=
  ∀ pre post req err, tr = pre ++ Event.createReq req err :: post → 1 ≤ invocations pre →
    pre.getLast? = some (Event.sleep ((invocations pre - 1) ^ 2 * Second))

/-- The requests executed in a trace, oldest first. -/
def executedRequests {Req : Type} (tr : List (Event Req)) : List Req :=
  tr.filterMap fun ev =>
    match ev with
    | Event.execute req _ _ => some req
    | _ => none

/-! ### A scripted world

The world counts the factory calls and the executed requests so far. The `i`-th factory call
(from 0) returns `factory i`; the `j`-th executed request gets the answer `service j req`. -/

/-- The world state of a scripted run. -/
structure Counters where
  created : Nat
  executed : Nat
deriving DecidableEq, Repr

/-- The scripted request factory. -/
def scriptFactory {Req : Type} (factory : Nat → Req × Option GoError) : Factory Counters Req :=
  fun w => (factory w.created, { w with created := w.created + 1 })

/-- The scripted network. -/
def scriptNet {Req Cert : Type} (service : Nat → Req → RoundTrip) : Net Counters Req Cert :=
  fun _ req w => (service w.executed req, { w with executed := w.executed + 1 })

/-- A client without authentication, for scripted runs. -/
def plainClient : Client Unit :=
  { Config := ⟨"https://spinnaker.test", "0.11+compatible", ⟨false, "", "", "", "", ""⟩⟩
    client := DefaultClient Unit }

/-! ## Stage parsing -/

/-- Modelled from the spec: the constant `DestroyServerGroupStageType` is not among the
sources; the spec gives the discriminator of this variant as `"destroyServerGroup"`. -/
def DestroyServerGroupStageType : String := "destroyServerGroup"

/-- The type `TargetServerGroupStage` as built by `parseDestroyServerGroupStage`: the mapped fields
and the notifications. -/
structure TargetServerGroupStage (S N : Type) where
  serializableTargetServerGroupStage : S
  Notifications : N
deriving DecidableEq, Repr

/-- What `parseDestroyServerGroupStage` calls: the constructor of the serializable stage
and `parseNotifications` (repository code that is not among the sources) and
`mapstructure.Decode`, which fills the stage through its pointer. `V` is `interface{}`. -/
structure StageLib (V S N : Type) where
  newSerializableTargetServerGroupStage : String → S
  mapstructureDecode : (String → Option V) → S → S × Option GoError
  parseNotifications : Option V → N × Option GoError

/-- The function `parseDestroyServerGroupStage` of destroy_server_group_stage.go. The document
`map[string]interface{}` is a function; `none` is the nil interface that indexing the map
gives for an absent key. -/
def parseDestroyServerGroupStage {V S N : Type} (lib : StageLib V S N)
    (stageMap : String → Option V) : Option (TargetServerGroupStage S N) × Option GoError :=
  match lib.mapstructureDecode stageMap
      (lib.newSerializableTargetServerGroupStage DestroyServerGroupStageType) with
  | (_, some err) => (none, some err)
  | (stage, none) =>
    match lib.parseNotifications (stageMap "notifications") with
    | (_, some err) => (none, some err)
    | (notifications, none) =>
      (some { serializableTargetServerGroupStage := stage, Notifications := notifications },
        none)

/-- A toy stage library: the mapped stage is its type and the document's `"target"` (which
must be present), the notifications are the number stored under `"notifications"` (absent
counts as 0, more than 9 is rejected). -/
def toyStageLib : StageLib Nat (String × Nat) Nat :=
  { newSerializableTargetServerGroupStage := fun t => (t, 0)
    mapstructureDecode := fun doc stage =>
      match doc "target" with
      | some t => ((stage.1, t), none)
      | none => (stage, some (GoError.foreign "target: expected a value"))
    parseNotifications := fun v =>
      match v with
      | none => (0, none)
      | some k => if k ≤ 9 then (k, none) else (0, some (GoError.foreign "bad notifications")) }

/-- A toy document with a target and no notifications. -/
def toyDocument : String → Option Nat :=
  fun key => if key = "target" then some 1 else none

/-- A decoder of error envelopes given by a finite table of the bodies it accepts; any other
body is a syntax error and leaves the target as it was. -/
def tableUnmarshal (table : List (String × SpinnakerError)) : Unmarshal SpinnakerError :=
  fun body target =>
    match table.lookup body with
    | some e => (e, none)
    | none => (target, some (GoError.foreign "invalid character"))

/-- The envelopes used in the scripted runs below. -/
def envelopes : List (String × SpinnakerError) :=
  [("\x7b\"status\":400,\"message\":\"first\"\x7d", ⟨400, "first"⟩),
   ("\x7b\"status\":400,\"message\":\"second\"\x7d", ⟨400, "second"⟩),
   ("\x7b\"status\":400,\"message\":\"third\"\x7d", ⟨400, "third"⟩),
   ("\x7b\"status\":400,\"message\":\"fourth\"\x7d", ⟨400, "fourth"⟩),
   ("\x7b\"status\":400,\"message\":\"fifth\"\x7d", ⟨400, "fifth"⟩),
   ("\x7b\"status\":400,\"message\":\"sixth\"\x7d", ⟨400, "sixth"⟩),
   ("\x7b\"status\":404,\"message\":\"not found\"\x7d", ⟨404, "not found"⟩),
   ("\x7b\"status\":500,\"message\":\"boom\"\x7d", ⟨500, "boom"⟩)]

/-- A response with the given status code and an unread body. -/
def freshResponse (code : Int) (body : String) : Response := ⟨code, ⟨body, false, 0⟩⟩

/-- A service that answers every request with HTTP 400 and an envelope of status 400. -/
def alwaysBadRequest : Nat → Nat → RoundTrip :=
  fun _ _ => RoundTrip.response (freshResponse 400 "\x7b\"status\":400,\"message\":\"first\"\x7d")

/-- A service that answers the first two requests with HTTP 400 and an envelope of status
400, and every later one with HTTP 200. -/
def twoBadRequests : Nat → Nat → RoundTrip :=
  fun j _ =>
    if j = 0 then
      RoundTrip.response (freshResponse 400 "\x7b\"status\":400,\"message\":\"first\"\x7d")
    else if j = 1 then
      RoundTrip.response (freshResponse 400 "\x7b\"status\":400,\"message\":\"second\"\x7d")
    else RoundTrip.response (freshResponse 200 "ok")

/-- A service that answers the `j`-th request with HTTP 400 and an envelope of status 400
whose message names the attempt. -/
def numberedBadRequests : Nat → Nat → RoundTrip :=
  fun j _ =>
    RoundTrip.response (freshResponse 400
      (match j with
       | 0 => "\x7b\"status\":400,\"message\":\"first\"\x7d"
       | 1 => "\x7b\"status\":400,\"message\":\"second\"\x7d"
       | 2 => "\x7b\"status\":400,\"message\":\"third\"\x7d"
       | 3 => "\x7b\"status\":400,\"message\":\"fourth\"\x7d"
       | 4 => "\x7b\"status\":400,\"message\":\"fifth\"\x7d"
       | _ => "\x7b\"status\":400,\"message\":\"sixth\"\x7d"))

/-- A service that answers every request with HTTP 500 and an envelope of status 500. -/
def alwaysServerError : Nat → Nat → RoundTrip :=
  fun _ _ => RoundTrip.response (freshResponse 500 "\x7b\"status\":500,\"message\":\"boom\"\x7d")

/-- A service that answers every request with HTTP 404 and an envelope of status 404. -/
def alwaysNotFound : Nat → Nat → RoundTrip :=
  fun _ _ =>
    RoundTrip.response (freshResponse 404 "\x7b\"status\":404,\"message\":\"not found\"\x7d")

/-- A factory that never fails; its `i`-th request is `i`. -/
def countingFactory : Nat → Nat × Option GoError := fun i => (i, none)

/-! ### Which status decides a retry -/

/-- Is the outcome of `client.Do` one that the loop retries on: a `*SpinnakerError` with
status 400? No error, and any other error, is not. -/
def retryable : Option GoError → Bool
  | some e => e.isBadRequest
  | none => false

/-- Shape of a trace: whenever something follows an executed request, that request failed
with a `*SpinnakerError` of status 400, fewer than 5 requests were executed before it, and
what follows starts with a sleep. -/
def RetriesFollowBadRequests {Req : Type} (tr : List (Event Req)) : Prop :=
  ∀ pre req resp err post, tr = pre ++ Event.execute req resp err :: post → post ≠ [] →
    retryable err = true ∧ executions pre < 5 ∧ ∃ d, post.head? = some (Event.sleep d)

/-- What a retry of the request executed after `pre` consists of, `post` being the events
that follow that request: a sleep of `a² s`, where `a` is the number of requests executed
before it, then a call of the request factory, and, when the factory returns a request
without an error, the execution of that very request. -/
def RetriedWith {Req : Type} (pre post : List (Event Req)) : Prop :=
  ∃ req2 ferr rest,
    post = Event.sleep (executions pre * executions pre * Second)
      :: Event.createReq req2 ferr :: rest ∧
    (ferr = none → ∃ resp2 err2 rest2, rest = Event.execute req2 resp2 err2 :: rest2)

/-- Shape of a trace: whenever something follows an executed request, it is a retry of that
request. -/
def RetriesAreComplete {Req : Type} (tr : List (Event Req)) : Prop :=
  ∀ pre req resp err post, tr = pre ++ Event.execute req resp err :: post → post ≠ [] →
    RetriedWith pre post

/-- The envelopes of the scripted runs, and the empty object, which decodes to the zero
envelope. -/
def envelopesWithEmpty : List (String × SpinnakerError) :=
  ("\x7b\x7d", ⟨0, ""⟩) :: envelopes

/-- A service whose HTTP codes and envelope statuses disagree: the first answer is HTTP 503
with an envelope of status 400, every later one HTTP 400 with an envelope of status 404. -/
def statusMismatch : Nat → Nat → RoundTrip :=
  fun j _ =>
    if j = 0 then
      RoundTrip.response (freshResponse 503 "\x7b\"status\":400,\"message\":\"first\"\x7d")
    else
      RoundTrip.response (freshResponse 400 "\x7b\"status\":404,\"message\":\"not found\"\x7d")

/-- A service that answers every request with HTTP 400 and an envelope without a status. -/
def statusOmitted : Nat → Nat → RoundTrip :=
  fun _ _ => RoundTrip.response (freshResponse 400 "\x7b\x7d")

end client

namespace provider

open client (GoError TLSLib NewClient)

/-- The type `Auth` of provider.go. -/
structure Auth where
  Enabled : Bool
  CertPath : String
  KeyPath : String
  CertContent : String
  KeyContent : String
  UserEmail : String
deriving DecidableEq, Repr

/-- The type `Config` of provider.go. -/
structure Config where
  Address : String
  Auth : Auth
deriving DecidableEq, Repr

/-- The type `Services` of provider.go. The values `client.ApplicationService{Client: c}`
and `client.PipelineService{Client: c}` are kept as the client `c` they wrap; their
declarations are not among the sources. -/
structure Services (Cert : Type) where
  Config : client.Config
  ApplicationService : client.Client Cert
  PipelineService : client.Client Cert
deriving DecidableEq, Repr

/-- The function `providerConfigure` of provider.go. `weakDecode` is `mapstructure.WeakDecode` into the
zero `Config`, `getenv` is `os.Getenv` (the empty string for an unset variable);
`.error err` is the return `nil, err`. -/
def providerConfigure {Raw Cert : Type} (weakDecode : Raw → Config → Config × Option GoError)
    (getenv : String → String) (tls : TLSLib Cert) (configRaw : Raw)
    (terraformVersion : String) : Except GoError (Services Cert) :=
  match weakDecode configRaw ⟨"", ⟨false, "", "", "", "", ""⟩⟩ with
  | (_, some err) => .error err
  | (config, none) =>
    let clientConfig : client.Config :=
      { Address := config.Address
        TerraformVersion := terraformVersion
        Auth :=
          { Enabled := config.Auth.Enabled
            CertPath := config.Auth.CertPath
            KeyPath := config.Auth.KeyPath
            CertContent := config.Auth.CertContent
            KeyContent := config.Auth.KeyContent
            UserEmail := config.Auth.UserEmail } }
    let clientConfig : client.Config :=
      if getenv "SPINNAKER_CERT" ≠ "" then
        { clientConfig with
          Auth := { clientConfig.Auth with
            Enabled := true
            CertPath := getenv "SPINNAKER_CERT"
            KeyPath := getenv "SPINNAKER_KEY" } }
      else clientConfig
    let clientConfig : client.Config :=
      if getenv "SPINNAKER_CERT_CONTENT" ≠ "" then
        { clientConfig with
          Auth := { clientConfig.Auth with
            Enabled := true
            CertContent := getenv "SPINNAKER_CERT_CONTENT"
            KeyContent := getenv "SPINNAKER_KEY_CONTENT" } }
      else clientConfig
    match NewClient tls clientConfig with
    | .error err => .error err
    | .ok c => .ok { Config := clientConfig, ApplicationService := c, PipelineService := c }

/-- The certificates of the HTTP client the services talk through (none for the default
client), or the error of `providerConfigure`. -/
def certificates {Cert : Type} (r : Except GoError (Services Cert)) :
    Except GoError (List Cert) :=
  match r with
  | .error err => .error err
  | .ok s =>
    match s.PipelineService.client.TLSClientConfig with
    | some cfg => .ok cfg.Certificates
    | none => .ok []

/-- The one certificate a successfully loaded key pair gives the client. -/
def loaded {Cert : Type} (r : Except GoError Cert) : Except GoError (List Cert) :=
  match r with
  | .error err => .error err
  | .ok cert => .ok [cert]

/-- Where a key pair came from, for a symbolic TLS library that accepts everything. -/
inductive KeyMaterial where
  | inline (cert key : String)
  | files (certPath keyPath : String)
deriving DecidableEq, Repr

/-- A TLS library that records which material a key pair was built from. -/
def symbolicTLS : TLSLib KeyMaterial :=
  { base64Decode := fun s => .ok s
    X509KeyPair := fun cert key => .ok (KeyMaterial.inline cert key)
    LoadX509KeyPair := fun certPath keyPath => .ok (KeyMaterial.files certPath keyPath) }

/-- An explicit configuration with inline credentials. -/
def explicitInline : Config :=
  ⟨"https://spinnaker.test", ⟨true, "", "", "explicit-cert", "explicit-key", ""⟩⟩

/-- An explicit configuration without credentials. -/
def explicitNone : Config :=
  ⟨"https://spinnaker.test", ⟨false, "", "", "", "", ""⟩⟩

/-- An environment that supplies a certificate and key by path only. -/
def envPaths : String → String :=
  fun name =>
    if name = "SPINNAKER_CERT" then "/env/client.crt"
    else if name = "SPINNAKER_KEY" then "/env/client.key"
    else ""

/-- An environment that supplies inline certificate and key content only. -/
def envInline : String → String :=
  fun name =>
    if name = "SPINNAKER_CERT_CONTENT" then "env-cert"
    else if name = "SPINNAKER_KEY_CONTENT" then "env-key"
    else ""

/-- A decoder of the raw configuration that is handed the decoded value itself. -/
def idDecode : Config → Config → Config × Option GoError := fun raw _ => (raw, none)

end provider

namespace client

/-! ## Lemmas on the retry loop -/

section RetryLemmas

variable {σ Req Cert : Type} (u : Unmarshal SpinnakerError) (net : Net σ Req Cert)
  (c : Client Cert) (f : Factory σ Req)

/-- The loop variant never cuts the loop short: once `attempts + fuel` reaches 5, more fuel
changes nothing. -/
theorem loop_fuel_succ (fuel : Nat) : ∀ (a : Nat) (resp : Option Response)
    (err : Option GoError) (w : σ) (tr : List (Event Req)), 5 ≤ a + fuel →
    DoWithRetry.loop u net c f (fuel + 1) a resp err w tr
      = DoWithRetry.loop u net c f fuel a resp err w tr := by
  induction fuel with
  | zero =>
    intro a resp err w tr h
    have h5 : ¬ a < 5 := by omega
    cases err <;> simp [DoWithRetry.loop, h5]
  | succ n ih =>
    intro a resp err w tr h
    cases err with
    | none => simp [DoWithRetry.loop]
    | some e =>
      by_cases h5 : a < 5
      · cases e with
        | spinnakerError se =>
          by_cases hs : se.Status = 400
          · rcases hf : f w with ⟨⟨req, _ | ferr⟩, w1⟩
            · rcases hd : Client.Do u net c req w1 with ⟨⟨r1, e1⟩, w2⟩
              have := ih (a + 1) r1 e1 w2
                (tr ++ [Event.sleep (a * a * Second), Event.createReq req none,
                  Event.execute req r1 e1]) (by omega)
              rw [DoWithRetry.loop]
              simp only [h5, hs, hf, hd, this]
              conv_rhs => rw [DoWithRetry.loop]
              simp [h5, hs, hf, hd]
            · simp [DoWithRetry.loop, h5, hs, hf]
          · simp [DoWithRetry.loop, h5, hs]
        | errorsNew m => simp [DoWithRetry.loop, h5]
        | foreign m => simp [DoWithRetry.loop, h5]
      · simp [DoWithRetry.loop, h5]

/-- Invariant rule for the retry loop: `Inv` holds at every loop head, `Post` at every
return. -/
theorem loop_rule
    (Inv : Nat → Option Response → Option GoError → σ → List (Event Req) → Prop)
    (Post : RetryRun σ Req → Prop)
    (hdone : ∀ a resp w tr, a ≤ 5 → Inv a resp none w tr → Post ⟨resp, none, w, tr⟩)
    (hexhaust : ∀ resp e w tr, Inv 5 resp (some e) w tr → Post ⟨resp, some e, w, tr⟩)
    (hfatal : ∀ a resp e w tr, a < 5 → Inv a resp (some e) w tr → e.isBadRequest = false →
      Post ⟨none, some e, w, tr⟩)
    (hfactory : ∀ a resp e w tr req ferr w1, a < 5 → Inv a resp (some e) w tr →
      e.isBadRequest = true → f w = ((req, some ferr), w1) →
      Post ⟨none, some ferr, w1,
        tr ++ [Event.sleep (a * a * Second), Event.createReq req (some ferr)]⟩)
    (hstep : ∀ a resp e w tr req w1 r1 e1 w2, a < 5 → Inv a resp (some e) w tr →
      e.isBadRequest = true → f w = ((req, none), w1) →
      Client.Do u net c req w1 = ((r1, e1), w2) →
      Inv (a + 1) r1 e1 w2 (tr ++ [Event.sleep (a * a * Second), Event.createReq req none,
        Event.execute req r1 e1]))
    (fuel : Nat) : ∀ (a : Nat) (resp : Option Response) (err : Option GoError) (w : σ)
      (tr : List (Event Req)), a + fuel = 5 → Inv a resp err w tr →
      Post (DoWithRetry.loop u net c f fuel a resp err w tr) := by
  induction fuel with
  | zero =>
    intro a resp err w tr h hinv
    have ha : a = 5 := by omega
    subst ha
    cases err with
    | none => simpa [DoWithRetry.loop] using hdone 5 resp w tr (le_refl 5) hinv
    | some e => simpa [DoWithRetry.loop] using hexhaust resp e w tr hinv
  | succ n ih =>
    intro a resp err w tr h hinv
    have h5 : a < 5 := by omega
    cases err with
    | none => simpa [DoWithRetry.loop] using hdone a resp w tr (by omega) hinv
    | some e =>
      cases e with
      | spinnakerError se =>
        by_cases hs : se.Status = 400
        · have hb : (GoError.spinnakerError se).isBadRequest = true := by
            simp [GoError.isBadRequest, hs]
          rcases hf : f w with ⟨⟨req, _ | ferr⟩, w1⟩
          · rcases hd : Client.Do u net c req w1 with ⟨⟨r1, e1⟩, w2⟩
            have hi := hstep a resp _ w tr req w1 r1 e1 w2 h5 hinv hb hf hd
            have := ih (a + 1) r1 e1 w2 _ (by omega) hi
            rw [DoWithRetry.loop]
            simpa [h5, hs, hf, hd] using this
          · have := hfactory a resp _ w tr req ferr w1 h5 hinv hb hf
            rw [DoWithRetry.loop]
            simpa [h5, hs, hf] using this
        · have hb : (GoError.spinnakerError se).isBadRequest = false := by
            simp [GoError.isBadRequest, hs]
          have := hfatal a resp _ w tr h5 hinv hb
          rw [DoWithRetry.loop]
          simpa [h5, hs] using this
      | errorsNew m =>
        have := hfatal a resp (GoError.errorsNew m) w tr h5 hinv rfl
        simpa [DoWithRetry.loop, h5] using this
      | foreign m =>
        have := hfatal a resp (GoError.foreign m) w tr h5 hinv rfl
        simpa [DoWithRetry.loop, h5] using this

/-- Invariant rule for `DoWithRetry`: the rule of the loop together with the first attempt. -/
theorem DoWithRetry_rule
    (Inv : Nat → Option Response → Option GoError → σ → List (Event Req) → Prop)
    (Post : RetryRun σ Req → Prop) (w : σ)
    (hfirst : ∀ req ferr w1, f w = ((req, some ferr), w1) →
      Post ⟨none, some ferr, w1, [Event.createReq req (some ferr)]⟩)
    (hinit : ∀ req w1 r e w2, f w = ((req, none), w1) →
      Client.Do u net c req w1 = ((r, e), w2) →
      Inv 0 r e w2 [Event.createReq req none, Event.execute req r e])
    (hdone : ∀ a resp w tr, a ≤ 5 → Inv a resp none w tr → Post ⟨resp, none, w, tr⟩)
    (hexhaust : ∀ resp e w tr, Inv 5 resp (some e) w tr → Post ⟨resp, some e, w, tr⟩)
    (hfatal : ∀ a resp e w tr, a < 5 → Inv a resp (some e) w tr → e.isBadRequest = false →
      Post ⟨none, some e, w, tr⟩)
    (hfactory : ∀ a resp e w tr req ferr w1, a < 5 → Inv a resp (some e) w tr →
      e.isBadRequest = true → f w = ((req, some ferr), w1) →
      Post ⟨none, some ferr, w1,
        tr ++ [Event.sleep (a * a * Second), Event.createReq req (some ferr)]⟩)
    (hstep : ∀ a resp e w tr req w1 r1 e1 w2, a < 5 → Inv a resp (some e) w tr →
      e.isBadRequest = true → f w = ((req, none), w1) →
      Client.Do u net c req w1 = ((r1, e1), w2) →
      Inv (a + 1) r1 e1 w2 (tr ++ [Event.sleep (a * a * Second), Event.createReq req none,
        Event.execute req r1 e1])) :
    Post (Client.DoWithRetry u net c f w) := by
  rcases hf : f w with ⟨⟨req, _ | ferr⟩, w1⟩
  · rcases hd : Client.Do u net c req w1 with ⟨⟨r, e⟩, w2⟩
    have := loop_rule u net c f Inv Post hdone hexhaust hfatal hfactory hstep 5 0 r e w2 _
      (by omega) (hinit req w1 r e w2 hf hd)
    simpa [Client.DoWithRetry, hf, hd] using this
  · simpa [Client.DoWithRetry, hf] using hfirst req ferr w1 hf

/-- In every run the factory is called at most 6 times and at most 6 requests are
executed. -/
theorem DoWithRetry_counts_le (w : σ) :
    invocations (Client.DoWithRetry u net c f w).trace ≤ 6 ∧
      executions (Client.DoWithRetry u net c f w).trace ≤ 6 := by
  refine DoWithRetry_rule u net c f
    (fun a _ _ _ tr => invocations tr ≤ a + 1 ∧ executions tr ≤ a + 1)
    (fun run => invocations run.trace ≤ 6 ∧ executions run.trace ≤ 6) w ?_ ?_ ?_ ?_ ?_ ?_ ?_
  · intro req ferr w1 _
    simp [invocations, executions, Event.isCreateReq, Event.isExecute]
  · intro req w1 r e w2 _ _
    simp [invocations, executions, Event.isCreateReq, Event.isExecute]
  · intro a resp w1 tr h5 h
    dsimp only
    omega
  · intro resp e w1 tr h
    exact h
  · intro a resp e w1 tr h5 h _
    dsimp only
    omega
  · intro a resp e w1 tr req ferr w2 h5 h _ _
    simp only [invocations, executions, List.countP_append] at h ⊢
    simp [Event.isCreateReq, Event.isExecute]
    omega
  · intro a resp e w1 tr req w2 r1 e1 w3 h5 h _ _ _
    simp only [invocations, executions, List.countP_append] at h ⊢
    simp [Event.isCreateReq, Event.isExecute]
    omega

/-- When the factory never fails and every executed request fails with a `*SpinnakerError`
of status 400, the run makes 6 factory calls and executes 6 requests, and returns what the
last executed request returned. -/
theorem DoWithRetry_exhaust (w : σ) (hf : ∀ w, (f w).1.2 = none)
    (hs : ∀ req w, ∃ se : SpinnakerError,
      (Client.Do u net c req w).1.2 = some (GoError.spinnakerError se) ∧ se.Status = 400) :
    invocations (Client.DoWithRetry u net c f w).trace = 6 ∧
      executions (Client.DoWithRetry u net c f w).trace = 6 ∧
      ∃ req se, se.Status = 400 ∧
        (Client.DoWithRetry u net c f w).err = some (GoError.spinnakerError se) ∧
        (Client.DoWithRetry u net c f w).trace.getLast?
          = some (Event.execute req (Client.DoWithRetry u net c f w).resp
              (some (GoError.spinnakerError se))) := by
  refine DoWithRetry_rule u net c f
    (fun a resp err _ tr => invocations tr = a + 1 ∧ executions tr = a + 1 ∧
      ∃ req se, se.Status = 400 ∧ err = some (GoError.spinnakerError se) ∧
        tr.getLast? = some (Event.execute req resp err))
    (fun run => invocations run.trace = 6 ∧ executions run.trace = 6 ∧
      ∃ req se, se.Status = 400 ∧ run.err = some (GoError.spinnakerError se) ∧
        run.trace.getLast? = some (Event.execute req run.resp (some (GoError.spinnakerError se))))
    w ?_ ?_ ?_ ?_ ?_ ?_ ?_
  · intro req ferr w1 h
    have := hf w
    simp [h] at this
  · intro req w1 r e w2 _ hd
    obtain ⟨se, h1, h2⟩ := hs req w1
    rw [hd] at h1
    simp only at h1
    subst h1
    refine ⟨by simp [invocations, Event.isCreateReq], by simp [executions, Event.isExecute],
      req, se, h2, rfl, by simp⟩
  · intro a resp w1 tr _ h
    obtain ⟨_, _, _, _, _, h, _⟩ := h
    simp at h
  · intro resp e w1 tr h
    obtain ⟨h1, h2, req, se, h3, h4, h5⟩ := h
    exact ⟨h1, h2, req, se, h3, h4, by rw [h5, h4]⟩
  · intro a resp e w1 tr _ h hb
    obtain ⟨_, _, _, se, h3, h4, _⟩ := h
    simp only [Option.some.injEq] at h4
    subst h4
    simp [GoError.isBadRequest, h3] at hb
  · intro a resp e w1 tr req ferr w2 _ _ _ h
    have := hf w1
    simp [h] at this
  · intro a resp e w1 tr req w2 r1 e1 w3 _ h _ _ hd
    obtain ⟨h1, h2, _⟩ := h
    obtain ⟨se, h3, h4⟩ := hs req w2
    rw [hd] at h3
    simp only at h3
    subst h3
    refine ⟨?_, ?_, req, se, h4, rfl, by simp⟩
    · simp only [invocations, List.countP_append] at h1 ⊢
      simp [Event.isCreateReq]
      omega
    · simp only [executions, List.countP_append] at h2 ⊢
      simp [Event.isExecute]
      omega

/-- Two lists that agree after appending one element each agree before. -/
theorem append_singleton_inj {α : Type} {xs ys : List α} {a b : α}
    (h : xs ++ [a] = ys ++ [b]) : xs = ys ∧ a = b := by
  have := List.append_inj' h rfl
  simpa using this

theorem sleepsBeforeCalls_nil : SleepsBeforeCalls ([] : List (Event Req)) := by
  intro pre post req err h
  simp at h

theorem sleepsBeforeCalls_append_other (tr : List (Event Req)) (e : Event Req)
    (h : SleepsBeforeCalls tr) (he : e.isCreateReq = false) : SleepsBeforeCalls (tr ++ [e]) := by
  intro pre post req err heq hpre
  rcases List.eq_nil_or_concat post with hp | ⟨post1, x, hp⟩
  · subst hp
    have h2 : e = Event.createReq req err := (append_singleton_inj heq).2
    subst h2
    simp [Event.isCreateReq] at he
  · subst hp
    have heq2 : tr ++ [e] = (pre ++ Event.createReq req err :: post1) ++ [x] := by
      simpa using heq
    have := (List.append_inj' heq2 rfl).1
    exact h pre post1 req err this hpre

theorem sleepsBeforeCalls_append_call (tr : List (Event Req)) (req : Req) (err : Option GoError)
    (h : SleepsBeforeCalls tr)
    (hl : 1 ≤ invocations tr →
      tr.getLast? = some (Event.sleep ((invocations tr - 1) ^ 2 * Second))) :
    SleepsBeforeCalls (tr ++ [Event.createReq req err]) := by
  intro pre post req1 err1 heq hpre
  rcases List.eq_nil_or_concat post with hp | ⟨post1, x, hp⟩
  · subst hp
    have := (append_singleton_inj heq).1
    subst this
    exact hl hpre
  · subst hp
    have heq2 : tr ++ [Event.createReq req err]
        = (pre ++ Event.createReq req1 err1 :: post1) ++ [x] := by
      simpa using heq
    have := (List.append_inj' heq2 rfl).1
    exact h pre post1 req1 err1 this hpre

/-- Every run has the shape `SleepsBeforeCalls`. -/
theorem DoWithRetry_sleepsBeforeCalls (w : σ) :
    SleepsBeforeCalls (Client.DoWithRetry u net c f w).trace := by
  refine DoWithRetry_rule u net c f
    (fun a _ _ _ tr => SleepsBeforeCalls tr ∧ invocations tr = a + 1)
    (fun run => SleepsBeforeCalls run.trace) w ?_ ?_ ?_ ?_ ?_ ?_ ?_
  · intro req ferr w1 _
    exact sleepsBeforeCalls_append_call [] req (some ferr) sleepsBeforeCalls_nil
      (by simp [invocations])
  · intro req w1 r e w2 _ _
    refine ⟨?_, by simp [invocations, Event.isCreateReq]⟩
    exact sleepsBeforeCalls_append_other [Event.createReq req none] _
      (sleepsBeforeCalls_append_call [] req none sleepsBeforeCalls_nil (by simp [invocations]))
      rfl
  · intro a resp w1 tr _ h
    exact h.1
  · intro resp e w1 tr h
    exact h.1
  · intro a resp e w1 tr _ h _
    exact h.1
  · intro a resp e w1 tr req ferr w2 _ h _ _
    obtain ⟨h1, h2⟩ := h
    have hA := sleepsBeforeCalls_append_other tr (Event.sleep (a * a * Second)) h1 rfl
    have hB := sleepsBeforeCalls_append_call _ req (some ferr) hA (by
      intro _
      simp [invocations, List.countP_append, Event.isCreateReq] at h2 ⊢
      rw [h2]
      simp [pow_two])
    simpa using hB
  · intro a resp e w1 tr req w2 r1 e1 w3 _ h _ _ _
    obtain ⟨h1, h2⟩ := h
    have hA := sleepsBeforeCalls_append_other tr (Event.sleep (a * a * Second)) h1 rfl
    have hB := sleepsBeforeCalls_append_call _ req none hA (by
      intro _
      simp [invocations, List.countP_append, Event.isCreateReq] at h2 ⊢
      rw [h2]
      simp [pow_two])
    have hC := sleepsBeforeCalls_append_other _ (Event.execute req r1 e1) hB rfl
    refine ⟨by simpa using hC, ?_⟩
    simp only [invocations, List.countP_append] at h2 ⊢
    simp [Event.isCreateReq]
    omega

/-- A trace whose events before the last are not fatal: a fatal event in it is the last
one, and the error `e` is the error of that event when `e` is the error of a fatal last event. -/
theorem fatal_is_last (tr0 : List (Event Req)) (last : Event Req) (e : Option GoError)
    (h0 : ∀ ev ∈ tr0, ev.isFatal = false) (hl : last.isFatal = true → e = last.failure) :
    ∀ pre ev post, tr0 ++ [last] = pre ++ ev :: post → ev.isFatal = true →
      post = [] ∧ e = ev.failure := by
  intro pre ev post heq hfatal
  rcases List.eq_nil_or_concat post with hp | ⟨post1, x, hp⟩
  · subst hp
    have h2 : last = ev := (append_singleton_inj heq).2
    subst h2
    exact ⟨rfl, hl hfatal⟩
  · subst hp
    have heq2 : tr0 ++ [last] = (pre ++ ev :: post1) ++ [x] := by simpa using heq
    have h3 := (List.append_inj' heq2 rfl).1
    have hmem : ev ∈ tr0 := by
      rw [h3]
      simp
    rw [h0 ev hmem] at hfatal
    cases hfatal

/-- In every run a fatal event (a failed factory call, or a request failing with anything but
a `*SpinnakerError` of status 400) is the last event, and its error is the returned error. -/
theorem DoWithRetry_fatal_is_last (w : σ) :
    ∀ pre ev post, (Client.DoWithRetry u net c f w).trace = pre ++ ev :: post →
      ev.isFatal = true → post = [] ∧ (Client.DoWithRetry u net c f w).err = ev.failure := by
  refine DoWithRetry_rule u net c f
    (fun _ resp err _ tr => ∃ tr0 req, tr = tr0 ++ [Event.execute req resp err] ∧
      ∀ ev ∈ tr0, ev.isFatal = false)
    (fun run => ∀ pre ev post, run.trace = pre ++ ev :: post →
      ev.isFatal = true → post = [] ∧ run.err = ev.failure) w ?_ ?_ ?_ ?_ ?_ ?_ ?_
  · intro req ferr w1 _
    exact fatal_is_last [] _ _ (by simp) (fun _ => rfl)
  · intro req w1 r e w2 _ _
    exact ⟨[Event.createReq req none], req, rfl, by simp [Event.isFatal]⟩
  · intro a resp w1 tr _ h
    obtain ⟨tr0, req, h1, h2⟩ := h
    subst h1
    exact fatal_is_last tr0 _ _ h2 (fun _ => rfl)
  · intro resp e w1 tr h
    obtain ⟨tr0, req, h1, h2⟩ := h
    subst h1
    exact fatal_is_last tr0 _ _ h2 (fun _ => rfl)
  · intro a resp e w1 tr _ h _
    obtain ⟨tr0, req, h1, h2⟩ := h
    subst h1
    exact fatal_is_last tr0 _ _ h2 (fun _ => rfl)
  · intro a resp e w1 tr req ferr w2 _ h hb _
    obtain ⟨tr0, req0, h1, h2⟩ := h
    subst h1
    have := fatal_is_last
      (tr0 ++ [Event.execute req0 resp (some e), Event.sleep (a * a * Second)])
      (Event.createReq req (some ferr)) (some ferr) (by
        intro ev hev
        simp only [List.mem_append, List.mem_cons, List.mem_singleton, List.not_mem_nil,
          or_false] at hev
        rcases hev with hev | hev | hev
        · exact h2 ev hev
        · subst hev
          simp [Event.isFatal, hb]
        · subst hev
          rfl) (fun _ => rfl)
    simpa using this
  · intro a resp e w1 tr req w2 r1 e1 w3 _ h hb _ _
    obtain ⟨tr0, req0, h1, h2⟩ := h
    subst h1
    refine ⟨tr0 ++ [Event.execute req0 resp (some e), Event.sleep (a * a * Second),
      Event.createReq req none], req, by simp, ?_⟩
    intro ev hev
    simp only [List.mem_append, List.mem_cons, List.mem_singleton, List.not_mem_nil,
      or_false] at hev
    rcases hev with hev | hev | hev | hev
    · exact h2 ev hev
    · subst hev
      simp [Event.isFatal, hb]
    · subst hev
      rfl
    · subst hev
      rfl

/-- A first request that fails with an error that is not retried ends the run at once. -/
theorem DoWithRetry_first_fatal (w w1 w2 : σ) (req : Req) (r : Option Response) (e : GoError)
    (hf : f w = ((req, none), w1)) (hd : Client.Do u net c req w1 = ((r, some e), w2))
    (hb : e.isBadRequest = false) :
    Client.DoWithRetry u net c f w
      = ⟨none, some e, w2, [Event.createReq req none, Event.execute req r (some e)]⟩ := by
  cases e with
  | spinnakerError se =>
    have hs : ¬ se.Status = 400 := by simpa [GoError.isBadRequest] using hb
    simp [Client.DoWithRetry, hf, hd, DoWithRetry.loop, hs]
  | errorsNew m => simp [Client.DoWithRetry, hf, hd, DoWithRetry.loop]
  | foreign m => simp [Client.DoWithRetry, hf, hd, DoWithRetry.loop]

/-- An error returned after fewer than 6 executed requests comes with a nil response. -/
theorem DoWithRetry_nil_response (w : σ) :
    (Client.DoWithRetry u net c f w).err ≠ none →
      executions (Client.DoWithRetry u net c f w).trace < 6 →
      (Client.DoWithRetry u net c f w).resp = none := by
  refine DoWithRetry_rule u net c f
    (fun a _ _ _ tr => executions tr = a + 1)
    (fun run => run.err ≠ none → executions run.trace < 6 → run.resp = none)
    w ?_ ?_ ?_ ?_ ?_ ?_ ?_
  · intro req ferr w1 _ _ _
    rfl
  · intro req w1 r e w2 _ _
    simp [executions, Event.isExecute]
  · intro a resp w1 tr _ _ h
    exact absurd rfl h
  · intro resp e w1 tr h _ h6
    dsimp only at h h6
    omega
  · intro a resp e w1 tr _ _ _ _ _
    rfl
  · intro a resp e w1 tr req ferr w2 _ _ _ _ _ _
    rfl
  · intro a resp e w1 tr req w2 r1 e1 w3 _ h _ _ _
    simp only [executions, List.countP_append] at h ⊢
    simp [Event.isExecute]
    omega

/-- In the scripted world one `Client.Do` advances the count of executed requests by one. -/
theorem Do_scriptNet_world (service : Nat → Req → RoundTrip) (req : Req) (i j : Nat) :
    (Client.Do u (scriptNet service) c req ⟨i, j⟩).2 = ⟨i, j + 1⟩ := by
  unfold Client.Do Client.do'
  cases hs : service j req with
  | failure resp err => simp [scriptNet, hs]
  | response resp =>
    rcases hv : validateResponse u resp with ⟨r1, _ | e⟩ <;> simp [scriptNet, hs, hv]

/-- The method `Client.Do` never returns a nil response with a nil error. -/
theorem Do_success_isSome (req : Req) (w : σ)
    (h : (Client.Do u net c req w).1.2 = none) : (Client.Do u net c req w).1.1.isSome = true := by
  unfold Client.Do Client.do' at h ⊢
  rcases hn : net c.client req w with ⟨_ | _, w1⟩
  · rename_i resp
    rw [hn] at h
    rcases hv : validateResponse u resp with ⟨r1, _ | e⟩
    · simp [hv]
    · simp [hv] at h
  · rw [hn] at h
    simp at h

/-- Scripted run: the first `n ≤ 5` executed requests fail with status 400, the next
succeeds, the factory never fails. -/
theorem DoWithRetry_script_success (factory : Nat → Req × Option GoError)
    (service : Nat → Req → RoundTrip) (n : Nat) (hn : n ≤ 5)
    (hfac : ∀ i, (factory i).2 = none)
    (hfail : ∀ j, j < n → ∀ req i, ∃ se : SpinnakerError,
      (Client.Do u (scriptNet service) c req ⟨i, j⟩).1.2 = some (GoError.spinnakerError se) ∧
        se.Status = 400)
    (hok : ∀ req i, (Client.Do u (scriptNet service) c req ⟨i, n⟩).1.2 = none) :
    (Client.DoWithRetry u (scriptNet service) c (scriptFactory factory) ⟨0, 0⟩).err = none ∧
    (Client.DoWithRetry u (scriptNet service) c (scriptFactory factory) ⟨0, 0⟩).resp
      = (Client.Do u (scriptNet service) c (factory n).1 ⟨n + 1, n⟩).1.1 ∧
    invocations (Client.DoWithRetry u (scriptNet service) c (scriptFactory factory) ⟨0, 0⟩).trace
      = n + 1 ∧
    executions (Client.DoWithRetry u (scriptNet service) c (scriptFactory factory) ⟨0, 0⟩).trace
      = n + 1 ∧
    executedRequests
        (Client.DoWithRetry u (scriptNet service) c (scriptFactory factory) ⟨0, 0⟩).trace
      = (List.range (n + 1)).map (fun i => (factory i).1) := by
  refine DoWithRetry_rule u (scriptNet service) c (scriptFactory factory)
    (fun a resp err w tr => a ≤ n ∧ w = ⟨a + 1, a + 1⟩ ∧
      (resp, err) = (Client.Do u (scriptNet service) c (factory a).1 ⟨a + 1, a⟩).1 ∧
      invocations tr = a + 1 ∧ executions tr = a + 1 ∧
      executedRequests tr = (List.range (a + 1)).map (fun i => (factory i).1))
    (fun run => run.err = none ∧
      run.resp = (Client.Do u (scriptNet service) c (factory n).1 ⟨n + 1, n⟩).1.1 ∧
      invocations run.trace = n + 1 ∧ executions run.trace = n + 1 ∧
      executedRequests run.trace = (List.range (n + 1)).map (fun i => (factory i).1))
    ⟨0, 0⟩ ?_ ?_ ?_ ?_ ?_ ?_ ?_
  · intro req ferr w1 h
    have := hfac 0
    simp [scriptFactory] at h
    rw [h.1] at this
    simp at this
  · intro req w1 r e w2 h hd
    simp only [scriptFactory, Prod.mk.injEq] at h
    obtain ⟨h1, h2⟩ := h
    subst h2
    have hw := Do_scriptNet_world u c service req (0 + 1) 0
    rw [hd] at hw
    simp only at hw
    subst hw
    have hreq : (factory 0).1 = req := by rw [h1]
    refine ⟨Nat.zero_le n, rfl, ?_, by simp [invocations, Event.isCreateReq],
      by simp [executions, Event.isExecute],
      by simp [executedRequests, hreq, List.range_succ]⟩
    rw [hreq]
    simp [hd]
  · intro a resp w1 tr _ h
    obtain ⟨h1, _, h3, h4, h5, h6⟩ := h
    have han : a = n := by
      rcases Nat.lt_or_ge a n with hlt | hge
      · obtain ⟨se, hse, _⟩ := hfail a hlt (factory a).1 (a + 1)
        rw [← h3] at hse
        simp at hse
      · omega
    subst han
    refine ⟨rfl, ?_, h4, h5, h6⟩
    rw [← h3]
  · intro resp e w1 tr h
    obtain ⟨h1, _, h3, _⟩ := h
    have han : 5 = n := by omega
    subst han
    have := hok (factory 5).1 6
    rw [← h3] at this
    simp at this
  · intro a resp e w1 tr _ h hb
    obtain ⟨h1, _, h3, _⟩ := h
    rcases Nat.lt_or_ge a n with hlt | hge
    · obtain ⟨se, hse, hst⟩ := hfail a hlt (factory a).1 (a + 1)
      rw [← h3] at hse
      simp only [Option.some.injEq] at hse
      subst hse
      simp [GoError.isBadRequest, hst] at hb
    · have han : a = n := by omega
      subst han
      have := hok (factory a).1 (a + 1)
      rw [← h3] at this
      simp at this
  · intro a resp e w1 tr req ferr w2 _ _ _ h
    have := hfac w1.created
    simp [scriptFactory] at h
    rw [h.1] at this
    simp at this
  · intro a resp e w1 tr req w2 r1 e1 w3 _ h _ hf hd
    obtain ⟨h1, h2, h3, h4, h5, h6⟩ := h
    subst h2
    have han : a < n := by
      rcases Nat.lt_or_ge a n with hlt | hge
      · exact hlt
      · have han : a = n := by omega
        subst han
        have := hok (factory a).1 (a + 1)
        rw [← h3] at this
        simp at this
    simp only [scriptFactory, Prod.mk.injEq] at hf
    obtain ⟨hf1, hf2⟩ := hf
    subst hf2
    have hw := Do_scriptNet_world u c service req (a + 1 + 1) (a + 1)
    rw [hd] at hw
    simp only at hw
    subst hw
    have hreq : (factory (a + 1)).1 = req := by rw [hf1]
    refine ⟨han, rfl, ?_, ?_, ?_, ?_⟩
    · rw [hreq]
      simp [hd]
    · simp only [invocations, List.countP_append] at h4 ⊢
      simp [Event.isCreateReq]
      omega
    · simp only [executions, List.countP_append] at h5 ⊢
      simp [Event.isExecute]
      omega
    · simp only [executedRequests, List.filterMap_append] at h6 ⊢
      rw [h6, List.range_succ (a + 1)]
      simp [hreq]

end RetryLemmas

end client

/-! ## The retry policy of `DoWithRetry` -/

namespace client

/-- C1, as stated, fails: with a factory that never fails and a service that answers every
request with a `*SpinnakerError` of status 400, one call of `DoWithRetry` invokes the factory
6 times and executes 6 requests, which is more than 5. -/
theorem C1_counterexample_six_attempts :
    (∀ w, (scriptFactory countingFactory w).1.2 = none) ∧
    (∀ req w, ∃ se : SpinnakerError,
      (Client.Do (tableUnmarshal envelopes) (scriptNet alwaysBadRequest) plainClient req w).1.2
        = some (GoError.spinnakerError se) ∧ se.Status = 400) ∧
    invocations (Client.DoWithRetry (tableUnmarshal envelopes) (scriptNet alwaysBadRequest)
      plainClient (scriptFactory countingFactory) ⟨0, 0⟩).trace = 6 ∧
    executions (Client.DoWithRetry (tableUnmarshal envelopes) (scriptNet alwaysBadRequest)
      plainClient (scriptFactory countingFactory) ⟨0, 0⟩).trace = 6 ∧
    ¬ invocations (Client.DoWithRetry (tableUnmarshal envelopes) (scriptNet alwaysBadRequest)
      plainClient (scriptFactory countingFactory) ⟨0, 0⟩).trace ≤ 5 := by
  refine ⟨fun _ => rfl, fun _ _ => ⟨⟨400, "first"⟩, rfl, rfl⟩, ?_, ?_, ?_⟩ <;> decide

/-- C1, amended: `DoWithRetry` makes at most 6 attempts in total (the initial one plus 5
retries). In no run is the factory invoked, or a request executed, more than 6 times; and
for every factory that never fails and every service that answers each executed request with
a `*SpinnakerError` of status 400, one call invokes the factory and executes a request
exactly 6 times. -/
theorem C1_DoWithRetry_at_most_six_attempts {σ Req Cert : Type}
    (u : Unmarshal SpinnakerError) (net : Net σ Req Cert) (c : Client Cert)
    (f : Factory σ Req) (w : σ) :
    (invocations (Client.DoWithRetry u net c f w).trace ≤ 6 ∧
      executions (Client.DoWithRetry u net c f w).trace ≤ 6) ∧
    ((∀ w, (f w).1.2 = none) →
      (∀ req w, ∃ se : SpinnakerError,
        (Client.Do u net c req w).1.2 = some (GoError.spinnakerError se) ∧ se.Status = 400) →
      invocations (Client.DoWithRetry u net c f w).trace = 6 ∧
        executions (Client.DoWithRetry u net c f w).trace = 6) := by
  refine ⟨DoWithRetry_counts_le u net c f w, fun hf hs => ?_⟩
  have h := DoWithRetry_exhaust u net c f w hf hs
  exact ⟨h.1, h.2.1⟩

/-- C1, witness: the amended statement at the always-400 service with varying messages. -/
theorem C1_witness_six_attempts :
    invocations (Client.DoWithRetry (tableUnmarshal envelopes) (scriptNet numberedBadRequests)
      plainClient (scriptFactory countingFactory) ⟨0, 0⟩).trace = 6 ∧
    executions (Client.DoWithRetry (tableUnmarshal envelopes) (scriptNet numberedBadRequests)
      plainClient (scriptFactory countingFactory) ⟨0, 0⟩).trace = 6 :=
  (C1_DoWithRetry_at_most_six_attempts (tableUnmarshal envelopes) (scriptNet numberedBadRequests)
    plainClient (scriptFactory countingFactory) ⟨0, 0⟩).2 (fun _ => rfl) (by
      intro req w
      rcases w with ⟨i, j⟩
      rcases j with _ | _ | _ | _ | _ | _ | j
      · exact ⟨⟨400, "first"⟩, rfl, rfl⟩
      · exact ⟨⟨400, "second"⟩, rfl, rfl⟩
      · exact ⟨⟨400, "third"⟩, rfl, rfl⟩
      · exact ⟨⟨400, "fourth"⟩, rfl, rfl⟩
      · exact ⟨⟨400, "fifth"⟩, rfl, rfl⟩
      · exact ⟨⟨400, "sixth"⟩, rfl, rfl⟩
      · exact ⟨⟨400, "sixth"⟩, rfl, rfl⟩)

/-- C2, as stated, fails: when the first two requests fail with status 400 and the third
succeeds, the run sleeps 0 s before the 2nd attempt and 1 s before the 3rd, so the delay
before attempt `k` is not `(k - 1)²` seconds. -/
theorem C2_counterexample_no_delay_before_second_attempt :
    (Client.DoWithRetry (tableUnmarshal envelopes) (scriptNet twoBadRequests) plainClient
      (scriptFactory countingFactory) ⟨0, 0⟩).trace
      = [Event.createReq 0 none,
         Event.execute 0 (some ⟨400, ⟨"", false, 1⟩⟩)
           (some (GoError.spinnakerError ⟨400, "first"⟩)),
         Event.sleep 0,
         Event.createReq 1 none,
         Event.execute 1 (some ⟨400, ⟨"", false, 1⟩⟩)
           (some (GoError.spinnakerError ⟨400, "second"⟩)),
         Event.sleep 1000000000,
         Event.createReq 2 none,
         Event.execute 2 (some ⟨200, ⟨"ok", true, 0⟩⟩) none] ∧
    ¬ (∀ (pre post : List (Event Nat)) (req : Nat) (err : Option GoError) (k : Nat),
        (Client.DoWithRetry (tableUnmarshal envelopes) (scriptNet twoBadRequests) plainClient
          (scriptFactory countingFactory) ⟨0, 0⟩).trace = pre ++ Event.createReq req err :: post →
        invocations pre + 1 = k → 2 ≤ k →
        pre.getLast? = some (Event.sleep ((k - 1) ^ 2 * Second))) := by
  refine ⟨by decide, fun h => ?_⟩
  have h2 := h
    [Event.createReq 0 none,
     Event.execute 0 (some ⟨400, ⟨"", false, 1⟩⟩) (some (GoError.spinnakerError ⟨400, "first"⟩)),
     Event.sleep 0]
    [Event.execute 1 (some ⟨400, ⟨"", false, 1⟩⟩)
       (some (GoError.spinnakerError ⟨400, "second"⟩)),
     Event.sleep 1000000000,
     Event.createReq 2 none,
     Event.execute 2 (some ⟨200, ⟨"ok", true, 0⟩⟩) none]
    1 none 2 (by decide) (by decide) (by decide)
  revert h2
  decide

/-- C2, amended: in every run of `DoWithRetry` the delay slept immediately before attempt
`k` (attempts 1-indexed, `k ≥ 2`) is `(k - 2)²` seconds: the event right before the `k`-th
factory call is a sleep of that length. So the call sleeps 0 s before the 2nd attempt and
1 s before the 3rd. -/
theorem C2_delay_before_attempt {σ Req Cert : Type}
    (u : Unmarshal SpinnakerError) (net : Net σ Req Cert) (c : Client Cert)
    (f : Factory σ Req) (w : σ) (pre post : List (Event Req)) (req : Req)
    (err : Option GoError) (k : Nat)
    (hsplit : (Client.DoWithRetry u net c f w).trace = pre ++ Event.createReq req err :: post)
    (hk : invocations pre + 1 = k) (h2 : 2 ≤ k) :
    pre.getLast? = some (Event.sleep ((k - 2) ^ 2 * Second)) := by
  have h := DoWithRetry_sleepsBeforeCalls u net c f w pre post req err hsplit (by omega)
  have hk2 : k - 2 = invocations pre - 1 := by omega
  rw [hk2]
  exact h

/-- C2, witness: in the run with two failures and a success, the event right before the 3rd
factory call is a sleep of `(3 - 2)² s`. -/
theorem C2_witness_delay_before_third_attempt :
    ([Event.createReq 0 none,
      Event.execute 0 (some ⟨400, ⟨"", false, 1⟩⟩)
        (some (GoError.spinnakerError ⟨400, "first"⟩)),
      Event.sleep 0,
      Event.createReq 1 none,
      Event.execute 1 (some ⟨400, ⟨"", false, 1⟩⟩)
        (some (GoError.spinnakerError ⟨400, "second"⟩)),
      Event.sleep 1000000000] : List (Event Nat)).getLast?
      = some (Event.sleep ((3 - 2) ^ 2 * Second)) :=
  C2_delay_before_attempt (tableUnmarshal envelopes) (scriptNet twoBadRequests) plainClient
    (scriptFactory countingFactory) ⟨0, 0⟩ _
    [Event.execute 2 (some ⟨200, ⟨"ok", true, 0⟩⟩) none] 2 none 3
    (by decide) (by decide) (by decide)

/-- C3: for every `n` from 0 to 4, if the factory never fails, the first `n` executed
requests fail with a `*SpinnakerError` of status 400 and the `(n+1)`-th succeeds, then
`DoWithRetry` returns the response of that `(n+1)`-th request with no error, after exactly
`n + 1` factory calls and `n + 1` executed requests, and the requests executed are the
`n + 1` requests the factory made, one per attempt. -/
theorem C3_success_after_bad_requests {Req Cert : Type} (u : Unmarshal SpinnakerError)
    (c : Client Cert) (factory : Nat → Req × Option GoError) (service : Nat → Req → RoundTrip)
    (n : Nat) (hn : n ≤ 4) (hfac : ∀ i, (factory i).2 = none)
    (hfail : ∀ j, j < n → ∀ req i, ∃ se : SpinnakerError,
      (Client.Do u (scriptNet service) c req ⟨i, j⟩).1.2 = some (GoError.spinnakerError se) ∧
        se.Status = 400)
    (hok : ∀ req i, (Client.Do u (scriptNet service) c req ⟨i, n⟩).1.2 = none) :
    (Client.DoWithRetry u (scriptNet service) c (scriptFactory factory) ⟨0, 0⟩).err = none ∧
    (Client.DoWithRetry u (scriptNet service) c (scriptFactory factory) ⟨0, 0⟩).resp
      = (Client.Do u (scriptNet service) c (factory n).1 ⟨n + 1, n⟩).1.1 ∧
    (Client.DoWithRetry u (scriptNet service) c (scriptFactory factory) ⟨0, 0⟩).resp.isSome
      = true ∧
    invocations (Client.DoWithRetry u (scriptNet service) c (scriptFactory factory) ⟨0, 0⟩).trace
      = n + 1 ∧
    executions (Client.DoWithRetry u (scriptNet service) c (scriptFactory factory) ⟨0, 0⟩).trace
      = n + 1 ∧
    executedRequests
        (Client.DoWithRetry u (scriptNet service) c (scriptFactory factory) ⟨0, 0⟩).trace
      = (List.range (n + 1)).map (fun i => (factory i).1) := by
  obtain ⟨h1, h2, h3, h4, h5⟩ :=
    DoWithRetry_script_success u c factory service n (by omega) hfac hfail hok
  refine ⟨h1, h2, ?_, h3, h4, h5⟩
  rw [h2]
  exact Do_success_isSome u (scriptNet service) c _ _ (hok _ _)

/-- C3, witness: two failures with status 400, then a success: 3 factory calls, 3 executed
requests, the successful response and no error. -/
theorem C3_witness_third_attempt_succeeds :
    (Client.DoWithRetry (tableUnmarshal envelopes) (scriptNet twoBadRequests) plainClient
      (scriptFactory countingFactory) ⟨0, 0⟩).err = none ∧
    (Client.DoWithRetry (tableUnmarshal envelopes) (scriptNet twoBadRequests) plainClient
      (scriptFactory countingFactory) ⟨0, 0⟩).resp
      = (Client.Do (tableUnmarshal envelopes) (scriptNet twoBadRequests) plainClient
          (countingFactory 2).1 ⟨2 + 1, 2⟩).1.1 ∧
    (Client.DoWithRetry (tableUnmarshal envelopes) (scriptNet twoBadRequests) plainClient
      (scriptFactory countingFactory) ⟨0, 0⟩).resp.isSome = true ∧
    invocations (Client.DoWithRetry (tableUnmarshal envelopes) (scriptNet twoBadRequests)
      plainClient (scriptFactory countingFactory) ⟨0, 0⟩).trace = 2 + 1 ∧
    executions (Client.DoWithRetry (tableUnmarshal envelopes) (scriptNet twoBadRequests)
      plainClient (scriptFactory countingFactory) ⟨0, 0⟩).trace = 2 + 1 ∧
    executedRequests (Client.DoWithRetry (tableUnmarshal envelopes) (scriptNet twoBadRequests)
      plainClient (scriptFactory countingFactory) ⟨0, 0⟩).trace
      = (List.range (2 + 1)).map (fun i => (countingFactory i).1) :=
  C3_success_after_bad_requests (tableUnmarshal envelopes) plainClient countingFactory
    twoBadRequests 2 (by decide) (fun _ => rfl)
    (by
      intro j hj req i
      rcases j with _ | _ | j
      · exact ⟨⟨400, "first"⟩, rfl, rfl⟩
      · exact ⟨⟨400, "second"⟩, rfl, rfl⟩
      · omega)
    (fun _ _ => rfl)

/-- C4: `DoWithRetry` stops at the first failure that is not a `*SpinnakerError` with status
400 and returns that error unmodified. In every run, a fatal event (the factory failed, or an
executed request failed with a `*SpinnakerError` of another status or with an error that is
not a `*SpinnakerError`) is the last event of the run (no factory call, request or sleep
follows it) and the returned error is the error of that event. In particular, when the
factory does not fail and every request is answered with a `*SpinnakerError` of status 500,
the run is one factory call and one executed request, without a sleep, and returns that
error. -/
theorem C4_fatal_failure_stops {σ Req Cert : Type}
    (u : Unmarshal SpinnakerError) (net : Net σ Req Cert) (c : Client Cert)
    (f : Factory σ Req) (w : σ) :
    (∀ pre ev post, (Client.DoWithRetry u net c f w).trace = pre ++ ev :: post →
      ev.isFatal = true →
      post = [] ∧ (Client.DoWithRetry u net c f w).err = ev.failure) ∧
    ((∀ w, (f w).1.2 = none) →
      (∀ req w, ∃ se : SpinnakerError,
        (Client.Do u net c req w).1.2 = some (GoError.spinnakerError se) ∧ se.Status = 500) →
      ∃ req resp se, se.Status = 500 ∧
        (Client.DoWithRetry u net c f w).err = some (GoError.spinnakerError se) ∧
        (Client.DoWithRetry u net c f w).trace
          = [Event.createReq req none,
             Event.execute req resp (some (GoError.spinnakerError se))]) := by
  refine ⟨DoWithRetry_fatal_is_last u net c f w, fun hf hs => ?_⟩
  rcases hfw : f w with ⟨⟨req, ferr⟩, w1⟩
  have hnone : ferr = none := by
    have := hf w
    rw [hfw] at this
    exact this
  subst hnone
  rcases hd : Client.Do u net c req w1 with ⟨⟨r, e⟩, w2⟩
  obtain ⟨se, h1, h2⟩ := hs req w1
  rw [hd] at h1
  simp only at h1
  subst h1
  have hb : (GoError.spinnakerError se).isBadRequest = false := by
    simp [GoError.isBadRequest, h2]
  rw [DoWithRetry_first_fatal u net c f w w1 w2 req r _ hfw hd hb]
  exact ⟨req, r, se, h2, rfl, rfl⟩

/-- C4, witness: a service that always answers with status 500: the failed request is the
last event, its error is returned, and the run is one factory call and one request. -/
theorem C4_witness_server_error_not_retried :
    (([] : List (Event Nat)) = [] ∧
      (Client.DoWithRetry (tableUnmarshal envelopes) (scriptNet alwaysServerError) plainClient
        (scriptFactory countingFactory) ⟨0, 0⟩).err
        = (Event.execute 0 (some ⟨500, ⟨"", false, 1⟩⟩)
            (some (GoError.spinnakerError ⟨500, "boom"⟩)) : Event Nat).failure) ∧
    (∃ req resp se, se.Status = 500 ∧
      (Client.DoWithRetry (tableUnmarshal envelopes) (scriptNet alwaysServerError) plainClient
        (scriptFactory countingFactory) ⟨0, 0⟩).err = some (GoError.spinnakerError se) ∧
      (Client.DoWithRetry (tableUnmarshal envelopes) (scriptNet alwaysServerError) plainClient
        (scriptFactory countingFactory) ⟨0, 0⟩).trace
        = [Event.createReq req none,
           Event.execute req resp (some (GoError.spinnakerError se))]) :=
  ⟨(C4_fatal_failure_stops (tableUnmarshal envelopes) (scriptNet alwaysServerError) plainClient
      (scriptFactory countingFactory) ⟨0, 0⟩).1 [Event.createReq 0 none] _ [] (by decide)
      (by decide),
   (C4_fatal_failure_stops (tableUnmarshal envelopes) (scriptNet alwaysServerError) plainClient
      (scriptFactory countingFactory) ⟨0, 0⟩).2 (fun _ => rfl)
      (fun _ _ => ⟨⟨500, "boom"⟩, rfl, rfl⟩)⟩

/-- C5: when `DoWithRetry` exhausts its retries (the factory never fails and every executed
request fails with a `*SpinnakerError` of status 400), it executes 6 requests and the error
it returns is the error of the last request it executed: the last event of the run is that
request, and its recorded error and response are the returned ones. -/
theorem C5_exhausted_returns_last_error {σ Req Cert : Type}
    (u : Unmarshal SpinnakerError) (net : Net σ Req Cert) (c : Client Cert)
    (f : Factory σ Req) (w : σ) (hf : ∀ w, (f w).1.2 = none)
    (hs : ∀ req w, ∃ se : SpinnakerError,
      (Client.Do u net c req w).1.2 = some (GoError.spinnakerError se) ∧ se.Status = 400) :
    executions (Client.DoWithRetry u net c f w).trace = 6 ∧
    ∃ req se, se.Status = 400 ∧
      (Client.DoWithRetry u net c f w).err = some (GoError.spinnakerError se) ∧
      (Client.DoWithRetry u net c f w).trace.getLast?
        = some (Event.execute req (Client.DoWithRetry u net c f w).resp
            (some (GoError.spinnakerError se))) :=
  (DoWithRetry_exhaust u net c f w hf hs).2

/-- C5, witness: six failures with status 400 and messages "first" to "sixth": the returned
error is the sixth. -/
theorem C5_witness_sixth_error_returned :
    (executions (Client.DoWithRetry (tableUnmarshal envelopes) (scriptNet numberedBadRequests)
      plainClient (scriptFactory countingFactory) ⟨0, 0⟩).trace = 6 ∧
    ∃ req se, se.Status = 400 ∧
      (Client.DoWithRetry (tableUnmarshal envelopes) (scriptNet numberedBadRequests)
        plainClient (scriptFactory countingFactory) ⟨0, 0⟩).err
        = some (GoError.spinnakerError se) ∧
      (Client.DoWithRetry (tableUnmarshal envelopes) (scriptNet numberedBadRequests)
        plainClient (scriptFactory countingFactory) ⟨0, 0⟩).trace.getLast?
        = some (Event.execute req
            (Client.DoWithRetry (tableUnmarshal envelopes) (scriptNet numberedBadRequests)
              plainClient (scriptFactory countingFactory) ⟨0, 0⟩).resp
            (some (GoError.spinnakerError se)))) ∧
    (Client.DoWithRetry (tableUnmarshal envelopes) (scriptNet numberedBadRequests)
      plainClient (scriptFactory countingFactory) ⟨0, 0⟩).err
      = some (GoError.spinnakerError ⟨400, "sixth"⟩) :=
  ⟨C5_exhausted_returns_last_error (tableUnmarshal envelopes) (scriptNet numberedBadRequests)
    plainClient (scriptFactory countingFactory) ⟨0, 0⟩ (fun _ => rfl) (by
      intro req w
      rcases w with ⟨i, j⟩
      rcases j with _ | _ | _ | _ | _ | _ | j
      · exact ⟨⟨400, "first"⟩, rfl, rfl⟩
      · exact ⟨⟨400, "second"⟩, rfl, rfl⟩
      · exact ⟨⟨400, "third"⟩, rfl, rfl⟩
      · exact ⟨⟨400, "fourth"⟩, rfl, rfl⟩
      · exact ⟨⟨400, "fifth"⟩, rfl, rfl⟩
      · exact ⟨⟨400, "sixth"⟩, rfl, rfl⟩
      · exact ⟨⟨400, "sixth"⟩, rfl, rfl⟩), by decide⟩

/-! ## Response validation and results returned next to an error -/

/-- C6: `validateResponse` returns no error exactly when the status code `c` satisfies
`200 ≤ c ≤ 299`; for every other code whose body decodes as an error envelope, it returns
the `*SpinnakerError` holding the status and message of the envelope. For a response with
status 404 whose body is an envelope of status 404, `Do` returns that response together with
a `*SpinnakerError` of status 404. -/
theorem C6_validateResponse_status {σ Req Cert : Type} (u : Unmarshal SpinnakerError)
    (r : Response) :
    ((validateResponse u r).2 = none ↔ 200 ≤ r.StatusCode ∧ r.StatusCode ≤ 299) ∧
    (∀ e : SpinnakerError, ¬ (200 ≤ r.StatusCode ∧ r.StatusCode ≤ 299) →
      u (readAll r.Body).1 ⟨0, ""⟩ = (e, none) →
      (validateResponse u r).2 = some (GoError.spinnakerError e)) ∧
    (∀ (net : Net σ Req Cert) (c : Client Cert) (req : Req) (w w1 : σ) (message : String),
      r.StatusCode = 404 → net c.client req w = (RoundTrip.response r, w1) →
      u (readAll r.Body).1 ⟨0, ""⟩ = (⟨404, message⟩, none) →
      (Client.Do u net c req w).1.2 = some (GoError.spinnakerError ⟨404, message⟩) ∧
        (Client.Do u net c req w).1.1.map Response.StatusCode = some 404) := by
  have key : ∀ e : SpinnakerError, ¬ (200 ≤ r.StatusCode ∧ r.StatusCode ≤ 299) →
      u (readAll r.Body).1 ⟨0, ""⟩ = (e, none) →
      validateResponse u r
        = ({ r with Body := (readAll r.Body).2 }, some (GoError.spinnakerError e)) := by
    intro e hc hu
    unfold validateResponse
    rw [if_neg hc]
    rcases hb : readAll r.Body with ⟨bodyString, body⟩
    rw [hb] at hu
    simp only at hu
    simp [hu]
  refine ⟨?_, fun e hc hu => by rw [key e hc hu], ?_⟩
  · by_cases hc : 200 ≤ r.StatusCode ∧ r.StatusCode ≤ 299
    · simp [validateResponse, hc]
    · unfold validateResponse
      rw [if_neg hc]
      rcases hb : readAll r.Body with ⟨bodyString, body⟩
      rcases hu : u bodyString ⟨0, ""⟩ with ⟨e, _ | err⟩ <;> simp [hc, hu]
  · intro net c req w w1 message h404 hnet hu
    have hc : ¬ (200 ≤ r.StatusCode ∧ r.StatusCode ≤ 299) := by
      rw [h404]
      decide
    have hv := key ⟨404, message⟩ hc hu
    simp [Client.Do, Client.do', hnet, hv, h404]

/-- C6, witness: the test's response, status 404 with the envelope of status 404 and message
"not found". -/
theorem C6_witness_not_found :
    (validateResponse (tableUnmarshal envelopes)
        (freshResponse 404 "\x7b\"status\":404,\"message\":\"not found\"\x7d")).2
      = some (GoError.spinnakerError ⟨404, "not found"⟩) ∧
    ((Client.Do (tableUnmarshal envelopes) (scriptNet alwaysNotFound) plainClient 0 ⟨0, 0⟩).1.2
        = some (GoError.spinnakerError ⟨404, "not found"⟩) ∧
      (Client.Do (tableUnmarshal envelopes) (scriptNet alwaysNotFound) plainClient 0
        ⟨0, 0⟩).1.1.map Response.StatusCode = some 404) :=
  ⟨(@C6_validateResponse_status Counters Nat Unit (tableUnmarshal envelopes)
      (freshResponse 404 "\x7b\"status\":404,\"message\":\"not found\"\x7d")).2.1
      ⟨404, "not found"⟩ (by decide) (by decide),
   (C6_validateResponse_status (tableUnmarshal envelopes)
      (freshResponse 404 "\x7b\"status\":404,\"message\":\"not found\"\x7d")).2.2
      (scriptNet alwaysNotFound) plainClient 0 ⟨0, 0⟩ ⟨0, 1⟩ "not found" rfl rfl (by decide)⟩

/-- C7, as stated, fails for each of the three functions: `Do` and `DoWithResponse` return
the response with status 404 together with the error, and `DoWithRetry` returns the last
response together with the last error after six failures with status 400. -/
theorem C7_counterexample_response_next_to_error :
    (Client.Do (tableUnmarshal envelopes) (scriptNet alwaysNotFound) plainClient 0 ⟨0, 0⟩).1
      = (some ⟨404, ⟨"", false, 1⟩⟩, some (GoError.spinnakerError ⟨404, "not found"⟩)) ∧
    (Client.DoWithResponse (tableUnmarshal envelopes) (fun _ (t : Nat) => (t, none))
      (scriptNet alwaysNotFound) plainClient 0 (some 7) ⟨0, 0⟩).1
      = (some ⟨404, ⟨"", false, 1⟩⟩, some (GoError.spinnakerError ⟨404, "not found"⟩),
          some 7) ∧
    (Client.DoWithRetry (tableUnmarshal envelopes) (scriptNet alwaysBadRequest) plainClient
      (scriptFactory countingFactory) ⟨0, 0⟩).resp = some ⟨400, ⟨"", false, 1⟩⟩ ∧
    (Client.DoWithRetry (tableUnmarshal envelopes) (scriptNet alwaysBadRequest) plainClient
      (scriptFactory countingFactory) ⟨0, 0⟩).err
      = some (GoError.spinnakerError ⟨400, "first"⟩) := by
  refine ⟨?_, ?_, ?_, ?_⟩ <;> decide

/-- C7, amended: `Do` and `DoWithResponse` return the response together with the error when
response validation fails, and pass on the pair of the HTTP client when the transport fails;
`DoWithResponse` returns a nil response with the error when decoding the body fails;
`DoWithRetry` returns a nil response with every error it returns after fewer than 6 executed
requests. -/
theorem C7_responses_returned_with_errors {σ Req Cert T : Type}
    (u : Unmarshal SpinnakerError) (uT : Unmarshal T) (net : Net σ Req Cert) (c : Client Cert)
    (f : Factory σ Req) (req : Req) (v : Option T) (w : σ) :
    (∀ r w1, net c.client req w = (RoundTrip.response r, w1) →
      (validateResponse u r).2 ≠ none →
      (Client.Do u net c req w).1 = (some (validateResponse u r).1, (validateResponse u r).2) ∧
      (Client.DoWithResponse u uT net c req v w).1.1 = some (validateResponse u r).1 ∧
      (Client.DoWithResponse u uT net c req v w).1.2.1 = (validateResponse u r).2) ∧
    (∀ resp err w1, net c.client req w = (RoundTrip.failure resp err, w1) →
      (Client.Do u net c req w).1 = (resp, some err) ∧
      (Client.DoWithResponse u uT net c req v w).1.1 = resp ∧
      (Client.DoWithResponse u uT net c req v w).1.2.1 = some err) ∧
    (∀ r w1, net c.client req w = (RoundTrip.response r, w1) →
      (validateResponse u r).2 = none →
      (decodeResponse uT (validateResponse u r).1 v).2 ≠ none →
      (Client.DoWithResponse u uT net c req v w).1.1 = none ∧
      (Client.DoWithResponse u uT net c req v w).1.2.1
        = (decodeResponse uT (validateResponse u r).1 v).2) ∧
    ((Client.DoWithRetry u net c f w).err ≠ none →
      executions (Client.DoWithRetry u net c f w).trace < 6 →
      (Client.DoWithRetry u net c f w).resp = none) := by
  refine ⟨?_, ?_, ?_, DoWithRetry_nil_response u net c f w⟩
  · intro r w1 hnet hv
    rcases hvr : validateResponse u r with ⟨r1, _ | e⟩
    · rw [hvr] at hv
      exact absurd rfl hv
    · simp [Client.Do, Client.DoWithResponse, Client.do', hnet, hvr]
  · intro resp err w1 hnet
    simp [Client.Do, Client.DoWithResponse, Client.do', hnet]
  · intro r w1 hnet hv hd
    rcases hvr : validateResponse u r with ⟨r1, _ | e⟩
    · rw [hvr] at hd
      rcases hdr : decodeResponse uT r1 v with ⟨⟨r2, v2⟩, _ | e⟩
      · rw [hdr] at hd
        exact absurd rfl hd
      · simp [Client.DoWithResponse, Client.do', hnet, hvr, hdr]
    · rw [hvr] at hv
      simp at hv

/-- C7, witness: status 404 for `Do` and `DoWithResponse`, a nil target for
`DoWithResponse` on a successful response, and a status 500 for `DoWithRetry`. -/
theorem C7_witness_responses_returned_with_errors :
    (Client.Do (tableUnmarshal envelopes) (scriptNet alwaysNotFound) plainClient 0 ⟨0, 0⟩).1.1
      = some ⟨404, ⟨"", false, 1⟩⟩ ∧
    (Client.DoWithResponse (tableUnmarshal envelopes) (fun _ (t : Nat) => (t, none))
      (scriptNet twoBadRequests) plainClient 0 none ⟨0, 2⟩).1.1 = none ∧
    (Client.DoWithRetry (tableUnmarshal envelopes) (scriptNet alwaysServerError) plainClient
      (scriptFactory countingFactory) ⟨0, 0⟩).resp = none :=
  ⟨by
    have h := ((C7_responses_returned_with_errors (tableUnmarshal envelopes)
      (fun _ (t : Nat) => (t, none)) (scriptNet alwaysNotFound) plainClient
      (scriptFactory countingFactory) 0 none ⟨0, 0⟩).1
      (freshResponse 404 "\x7b\"status\":404,\"message\":\"not found\"\x7d") ⟨0, 1⟩ rfl
      (by decide)).1
    rw [h]
    decide,
   ((C7_responses_returned_with_errors (tableUnmarshal envelopes)
      (fun _ (t : Nat) => (t, none)) (scriptNet twoBadRequests) plainClient
      (scriptFactory countingFactory) 0 none ⟨0, 2⟩).2.2.1
      (freshResponse 200 "ok") ⟨0, 3⟩ rfl (by decide) (by decide)).1,
   (C7_responses_returned_with_errors (tableUnmarshal envelopes)
      (fun _ (t : Nat) => (t, none)) (scriptNet alwaysServerError) plainClient
      (scriptFactory countingFactory) 0 none ⟨0, 0⟩).2.2.2 (by decide) (by decide)⟩

/-! ## Stage construction and `decodeResponse` -/

/-- C9: `parseDestroyServerGroupStage` is all-or-nothing. For every document it returns
either a stage with no error or no stage with an error. If the field mapping fails, or the
notifications parsing fails, the stage is nil and the error is that failure; on success the
stage consists of exactly the mapped fields and the parsed notifications of the document. -/
theorem C9_parseDestroyServerGroupStage_all_or_nothing {V S N : Type} (lib : StageLib V S N)
    (stageMap : String → Option V) :
    ((∃ stage, parseDestroyServerGroupStage lib stageMap = (some stage, none)) ∨
      (∃ err, parseDestroyServerGroupStage lib stageMap = (none, some err))) ∧
    (∀ err, (lib.mapstructureDecode stageMap
        (lib.newSerializableTargetServerGroupStage DestroyServerGroupStageType)).2 = some err →
      parseDestroyServerGroupStage lib stageMap = (none, some err)) ∧
    (∀ err, (lib.mapstructureDecode stageMap
        (lib.newSerializableTargetServerGroupStage DestroyServerGroupStageType)).2 = none →
      (lib.parseNotifications (stageMap "notifications")).2 = some err →
      parseDestroyServerGroupStage lib stageMap = (none, some err)) ∧
    ((lib.mapstructureDecode stageMap
        (lib.newSerializableTargetServerGroupStage DestroyServerGroupStageType)).2 = none →
      (lib.parseNotifications (stageMap "notifications")).2 = none →
      parseDestroyServerGroupStage lib stageMap
        = (some
            { serializableTargetServerGroupStage :=
                (lib.mapstructureDecode stageMap
                  (lib.newSerializableTargetServerGroupStage DestroyServerGroupStageType)).1
              Notifications := (lib.parseNotifications (stageMap "notifications")).1 },
           none)) := by
  unfold parseDestroyServerGroupStage
  rcases hm : lib.mapstructureDecode stageMap
      (lib.newSerializableTargetServerGroupStage DestroyServerGroupStageType)
    with ⟨stage, _ | merr⟩
  · rcases hp : lib.parseNotifications (stageMap "notifications") with ⟨ns, _ | perr⟩ <;> simp
  · simp

/-- C9, witness: a document that maps and has no notifications gives the stage made of the
mapped fields and the parsed notifications; a document without a target gives no stage. -/
theorem C9_witness_stage_or_error :
    parseDestroyServerGroupStage toyStageLib toyDocument
      = (some
          { serializableTargetServerGroupStage :=
              (toyStageLib.mapstructureDecode toyDocument
                (toyStageLib.newSerializableTargetServerGroupStage
                  DestroyServerGroupStageType)).1
            Notifications := (toyStageLib.parseNotifications (toyDocument "notifications")).1 },
         none) ∧
    parseDestroyServerGroupStage toyStageLib (fun _ => none)
      = (none, some (GoError.foreign "target: expected a value")) :=
  ⟨(C9_parseDestroyServerGroupStage_all_or_nothing toyStageLib toyDocument).2.2.2
      (by decide) (by decide),
   (C9_parseDestroyServerGroupStage_all_or_nothing toyStageLib (fun _ => none)).2.1
      (GoError.foreign "target: expected a value") (by decide)⟩

/-- C10: `decodeResponse` called with a nil target fails with
`ErrInvalidDecodeResponseParameter` for every response, whatever its status and body, and
leaves the response as it was: the body is not read. -/
theorem C10_decodeResponse_nil_target {T : Type} (u : Unmarshal T) (r : Response) :
    (decodeResponse u r none).2 = some ErrInvalidDecodeResponseParameter ∧
    (decodeResponse u r none).1.1 = r ∧
    (decodeResponse u r none).1.1.Body.readAlls = r.Body.readAlls :=
  ⟨rfl, rfl, rfl⟩

end client

/-! ## Credential precedence -/

namespace provider

open client (GoError TLSLib NewClient decodeBase64KeyPair)

end provider

/-! ## The status that decides a retry -/

namespace client

section RetryStatus

variable {σ Req Cert : Type} (u : Unmarshal SpinnakerError) (net : Net σ Req Cert)
  (c : Client Cert) (f : Factory σ Req)

theorem retriesFollow_nil : RetriesFollowBadRequests ([] : List (Event Req)) := by
  intro pre req resp err post h
  simp at h

/-- Appending one event keeps the shape, provided that an executed request at the end of the
trace is one that is retried and the appended event is a sleep. -/
theorem retriesFollow_append (tr : List (Event Req)) (x : Event Req)
    (h : RetriesFollowBadRequests tr)
    (hx : ∀ pre req resp err, tr = pre ++ [Event.execute req resp err] →
      retryable err = true ∧ executions pre < 5 ∧ ∃ d, x = Event.sleep d) :
    RetriesFollowBadRequests (tr ++ [x]) := by
  intro pre req resp err post heq hne
  rcases List.eq_nil_or_concat post with hp | ⟨p1, y, hp⟩
  · exact absurd hp hne
  · subst hp
    have heq2 : tr ++ [x] = (pre ++ Event.execute req resp err :: p1) ++ [y] := by
      simpa using heq
    obtain ⟨h1, h2⟩ := append_singleton_inj heq2
    subst h2
    cases p1 with
    | nil =>
      obtain ⟨ha, hb, d, hd⟩ := hx pre req resp err h1
      exact ⟨ha, hb, d, by simp [hd]⟩
    | cons z p2 =>
      obtain ⟨ha, hb, d, hd⟩ := h pre req resp err (z :: p2) h1 (by simp)
      exact ⟨ha, hb, d, by simpa using hd⟩

/-- In every run: an executed request is followed by something only if it failed with a
`*SpinnakerError` of status 400 and fewer than 5 requests came before it; the last event is
not such a request; and every recorded outcome is what `client.Do` returned. -/
theorem DoWithRetry_retries (w : σ) :
    RetriesFollowBadRequests (Client.DoWithRetry u net c f w).trace ∧
    (∀ pre req resp err,
      (Client.DoWithRetry u net c f w).trace = pre ++ [Event.execute req resp err] →
      ¬ (retryable err = true ∧ executions pre < 5)) ∧
    (∀ req resp err, Event.execute req resp err ∈ (Client.DoWithRetry u net c f w).trace →
      ∃ w1, (Client.Do u net c req w1).1 = (resp, err)) := by
  refine DoWithRetry_rule u net c f
    (fun a resp err _ tr => RetriesFollowBadRequests tr ∧
      (∃ tr0 req, tr = tr0 ++ [Event.execute req resp err] ∧ executions tr0 = a) ∧
      (∀ req resp err, Event.execute req resp err ∈ tr →
        ∃ w1, (Client.Do u net c req w1).1 = (resp, err)))
    (fun run => RetriesFollowBadRequests run.trace ∧
      (∀ pre req resp err, run.trace = pre ++ [Event.execute req resp err] →
        ¬ (retryable err = true ∧ executions pre < 5)) ∧
      (∀ req resp err, Event.execute req resp err ∈ run.trace →
        ∃ w1, (Client.Do u net c req w1).1 = (resp, err)))
    w ?_ ?_ ?_ ?_ ?_ ?_ ?_
  · intro req ferr w1 _
    refine ⟨?_, ?_, ?_⟩
    · refine retriesFollow_append [] _ retriesFollow_nil ?_
      intro pre req1 resp1 err1 h
      simp at h
    · intro pre req1 resp1 err1 h
      have h0 : ([] : List (Event Req)) ++ [Event.createReq req (some ferr)]
          = pre ++ [Event.execute req1 resp1 err1] := h
      have := (append_singleton_inj h0).2
      cases this
    · intro req1 resp1 err1 h
      simp at h
  · intro req w1 r e w2 _ hd
    refine ⟨?_, ⟨[Event.createReq req none], req, rfl, rfl⟩, ?_⟩
    · have h1 : RetriesFollowBadRequests [Event.createReq req none] := by
        refine retriesFollow_append [] _ retriesFollow_nil ?_
        intro pre req1 resp1 err1 h
        simp at h
      refine retriesFollow_append [Event.createReq req none] _ h1 ?_
      intro pre req1 resp1 err1 h
      have h0 : ([] : List (Event Req)) ++ [Event.createReq req none]
          = pre ++ [Event.execute req1 resp1 err1] := h
      have := (append_singleton_inj h0).2
      cases this
    · intro req1 resp1 err1 h
      simp only [List.mem_cons, List.mem_singleton, List.not_mem_nil, or_false] at h
      rcases h with h | h
      · cases h
      · cases h
        exact ⟨w1, by rw [hd]⟩
  · intro a resp w1 tr _ h
    obtain ⟨h1, ⟨tr0, req0, h2, h3⟩, h4⟩ := h
    refine ⟨h1, ?_, h4⟩
    intro pre req1 resp1 err1 heq
    rw [h2] at heq
    have := (append_singleton_inj heq).2
    cases this
    simp [retryable]
  · intro resp e w1 tr h
    obtain ⟨h1, ⟨tr0, req0, h2, h3⟩, h4⟩ := h
    refine ⟨h1, ?_, h4⟩
    intro pre req1 resp1 err1 heq
    rw [h2] at heq
    obtain ⟨h5, h6⟩ := append_singleton_inj heq
    subst h5
    omega
  · intro a resp e w1 tr _ h hb
    obtain ⟨h1, ⟨tr0, req0, h2, h3⟩, h4⟩ := h
    refine ⟨h1, ?_, h4⟩
    intro pre req1 resp1 err1 heq
    rw [h2] at heq
    have := (append_singleton_inj heq).2
    cases this
    simp [retryable, hb]
  · intro a resp e w1 tr req ferr w2 h5 h hb _
    obtain ⟨h1, ⟨tr0, req0, h2, h3⟩, h4⟩ := h
    have hA : RetriesFollowBadRequests (tr ++ [Event.sleep (a * a * Second)]) := by
      refine retriesFollow_append tr _ h1 ?_
      intro pre req1 resp1 err1 heq
      rw [h2] at heq
      obtain ⟨h6, h7⟩ := append_singleton_inj heq
      cases h7
      subst h6
      exact ⟨by simp [retryable, hb], by omega, _, rfl⟩
    have hB : RetriesFollowBadRequests
        (tr ++ [Event.sleep (a * a * Second)] ++ [Event.createReq req (some ferr)]) := by
      refine retriesFollow_append _ _ hA ?_
      intro pre req1 resp1 err1 heq
      have := (append_singleton_inj heq).2
      cases this
    refine ⟨by simpa using hB, ?_, ?_⟩
    · intro pre req1 resp1 err1 heq
      have heq2 : (tr ++ [Event.sleep (a * a * Second)]) ++ [Event.createReq req (some ferr)]
          = pre ++ [Event.execute req1 resp1 err1] := by simpa using heq
      have := (append_singleton_inj heq2).2
      cases this
    · intro req1 resp1 err1 hmem
      simp only [List.mem_append, List.mem_cons, List.mem_singleton, List.not_mem_nil,
        or_false] at hmem
      rcases hmem with hmem | hmem | hmem
      · exact h4 req1 resp1 err1 hmem
      · cases hmem
      · cases hmem
  · intro a resp e w1 tr req w2 r1 e1 w3 h5 h hb _ hd
    obtain ⟨h1, ⟨tr0, req0, h2, h3⟩, h4⟩ := h
    have hA : RetriesFollowBadRequests (tr ++ [Event.sleep (a * a * Second)]) := by
      refine retriesFollow_append tr _ h1 ?_
      intro pre req1 resp1 err1 heq
      rw [h2] at heq
      obtain ⟨h6, h7⟩ := append_singleton_inj heq
      cases h7
      subst h6
      exact ⟨by simp [retryable, hb], by omega, _, rfl⟩
    have hB : RetriesFollowBadRequests
        (tr ++ [Event.sleep (a * a * Second)] ++ [Event.createReq req none]) := by
      refine retriesFollow_append _ _ hA ?_
      intro pre req1 resp1 err1 heq
      have := (append_singleton_inj heq).2
      cases this
    have hC : RetriesFollowBadRequests
        (tr ++ [Event.sleep (a * a * Second)] ++ [Event.createReq req none]
          ++ [Event.execute req r1 e1]) := by
      refine retriesFollow_append _ _ hB ?_
      intro pre req1 resp1 err1 heq
      have := (append_singleton_inj heq).2
      cases this
    refine ⟨by simpa using hC,
      ⟨tr ++ [Event.sleep (a * a * Second), Event.createReq req none], req, by simp, ?_⟩, ?_⟩
    · rw [h2]
      simp only [executions, List.countP_append] at h3 ⊢
      simp [Event.isExecute]
      omega
    · intro req1 resp1 err1 hmem
      simp only [List.mem_append, List.mem_cons, List.mem_singleton, List.not_mem_nil,
        or_false] at hmem
      rcases hmem with hmem | hmem | hmem | hmem
      · exact h4 req1 resp1 err1 hmem
      · cases hmem
      · cases hmem
      · cases hmem
        exact ⟨w2, by rw [hd]⟩

/-- Where a cut of `tr ++ suf` at an event falls: inside `tr`, or inside `suf`. -/
theorem append_eq_cons_split {α : Type} {tr suf pre post : List α} {e : α}
    (h : tr ++ suf = pre ++ e :: post) :
    (∃ mid, tr = pre ++ e :: mid ∧ post = mid ++ suf) ∨
      (∃ front, pre = tr ++ front ∧ suf = front ++ e :: post) := by
  rcases List.append_eq_append_iff.1 h with ⟨front, h1, h2⟩ | ⟨back, h1, h2⟩
  · exact Or.inr ⟨front, h1, h2⟩
  · cases back with
    | nil =>
      refine Or.inr ⟨[], ?_, ?_⟩
      · simpa using h1.symm
      · simpa using h2.symm
    | cons x mid =>
      simp only [List.cons_append, List.cons.injEq] at h2
      obtain ⟨h3, h4⟩ := h2
      subst h3
      exact Or.inl ⟨mid, h1, h4⟩

/-- A retry stays a retry when more events follow. -/
theorem retriedWith_append (pre post suf : List (Event Req)) (h : RetriedWith pre post) :
    RetriedWith pre (post ++ suf) := by
  obtain ⟨req2, ferr, rest, h1, h2⟩ := h
  refine ⟨req2, ferr, rest ++ suf, by simp [h1], ?_⟩
  intro hn
  obtain ⟨resp2, err2, rest2, h3⟩ := h2 hn
  exact ⟨resp2, err2, rest2 ++ suf, by simp [h3]⟩

/-- Appending events keeps the shape, provided that they form a retry of an executed request
at the end of the trace and that an executed request among them is their last event. -/
theorem retriesAreComplete_append (tr suf : List (Event Req)) (h : RetriesAreComplete tr)
    (hlast : ∀ pre req resp err, tr = pre ++ [Event.execute req resp err] → suf ≠ [] →
      RetriedWith pre suf)
    (hsuf : ∀ front req resp err post, suf = front ++ Event.execute req resp err :: post →
      post = []) :
    RetriesAreComplete (tr ++ suf) := by
  intro pre req resp err post heq hne
  rcases append_eq_cons_split heq with ⟨mid, h1, h2⟩ | ⟨front, _, h2⟩
  · cases mid with
    | nil =>
      simp only [List.nil_append] at h2
      subst h2
      exact hlast pre req resp err h1 hne
    | cons z mid2 =>
      subst h2
      exact retriedWith_append pre _ suf (h pre req resp err (z :: mid2) h1 (by simp))
  · exact absurd (hsuf front req resp err post h2) hne

/-- In every run, whatever follows an executed request is a retry of it: a sleep, a call of
the factory and, if the factory made a request, the execution of that request. -/
theorem DoWithRetry_retriesAreComplete (w : σ) :
    RetriesAreComplete (Client.DoWithRetry u net c f w).trace := by
  refine DoWithRetry_rule u net c f
    (fun a resp err _ tr => RetriesAreComplete tr ∧
      ∃ tr0 req, tr = tr0 ++ [Event.execute req resp err] ∧ executions tr0 = a)
    (fun run => RetriesAreComplete run.trace)
    w ?_ ?_ ?_ ?_ ?_ ?_ ?_
  · intro req ferr w1 _
    intro pre req1 resp1 err1 post heq _
    rcases pre with _ | ⟨x, _ | ⟨y, pre2⟩⟩ <;> simp at heq
  · intro req w1 r e w2 _ _
    refine ⟨?_, [Event.createReq req none], req, rfl, rfl⟩
    intro pre req1 resp1 err1 post heq hne
    rcases pre with _ | ⟨x, _ | ⟨y, pre2⟩⟩ <;> simp at heq
    exact absurd heq.2.2 hne
  · intro a resp w1 tr _ h
    exact h.1
  · intro resp e w1 tr h
    exact h.1
  · intro a resp e w1 tr _ h _
    exact h.1
  · intro a resp e w1 tr req ferr w2 _ h _ _
    obtain ⟨h1, tr0, req0, h2, h3⟩ := h
    refine retriesAreComplete_append tr _ h1 ?_ ?_
    · intro pre req1 resp1 err1 heq _
      rw [h2] at heq
      obtain ⟨h4, _⟩ := append_singleton_inj heq
      subst h4
      refine ⟨req, some ferr, [], by rw [h3], ?_⟩
      intro hn
      cases hn
    · intro front req1 resp1 err1 post heq
      rcases front with _ | ⟨x, _ | ⟨y, _ | ⟨z, front2⟩⟩⟩ <;> simp at heq
  · intro a resp e w1 tr req w2 r1 e1 w3 _ h _ _ _
    obtain ⟨h1, tr0, req0, h2, h3⟩ := h
    refine ⟨?_, tr ++ [Event.sleep (a * a * Second), Event.createReq req none], req,
      by simp, ?_⟩
    · refine retriesAreComplete_append tr _ h1 ?_ ?_
      · intro pre req1 resp1 err1 heq _
        rw [h2] at heq
        obtain ⟨h4, _⟩ := append_singleton_inj heq
        subst h4
        exact ⟨req, none, [Event.execute req r1 e1], by rw [h3], fun _ => ⟨r1, e1, [], rfl⟩⟩
      · intro front req1 resp1 err1 post heq
        rcases front with _ | ⟨x, _ | ⟨y, _ | ⟨z, front2⟩⟩⟩ <;> simp at heq
        exact heq.2.2.2
    · rw [h2]
      simp only [executions, List.countP_append] at h3 ⊢
      simp [Event.isExecute]
      omega

/-- In every run the returned error is the error of the last event. -/
theorem DoWithRetry_err_is_last (w : σ) :
    ∃ ev, (Client.DoWithRetry u net c f w).trace.getLast? = some ev ∧
      (Client.DoWithRetry u net c f w).err = ev.failure := by
  refine DoWithRetry_rule u net c f
    (fun _ resp err _ tr => ∃ req, tr.getLast? = some (Event.execute req resp err))
    (fun run => ∃ ev, run.trace.getLast? = some ev ∧ run.err = ev.failure)
    w ?_ ?_ ?_ ?_ ?_ ?_ ?_
  · intro req ferr w1 _
    exact ⟨_, rfl, rfl⟩
  · intro req w1 r e w2 _ _
    exact ⟨req, rfl⟩
  · intro a resp w1 tr _ h
    obtain ⟨req, h⟩ := h
    exact ⟨_, h, rfl⟩
  · intro resp e w1 tr h
    obtain ⟨req, h⟩ := h
    exact ⟨_, h, rfl⟩
  · intro a resp e w1 tr _ h _
    obtain ⟨req, h⟩ := h
    exact ⟨_, h, rfl⟩
  · intro a resp e w1 tr req ferr w2 _ _ _ _
    exact ⟨Event.createReq req (some ferr), by simp, rfl⟩
  · intro a resp e w1 tr req w2 r1 e1 w3 _ _ _ _ _
    exact ⟨req, by simp⟩

/-- For a response outside 200..299, `client.Do` returns the response with its own status
code, and the error it returns is one the loop retries on exactly when the body decodes,
without error, to an envelope of status 400. The decoder's own errors are not
`*SpinnakerError` values. -/
theorem Do_retryable_iff (hjson : ∀ body t se, (u body t).2 ≠ some (GoError.spinnakerError se))
    (req : Req) (w w1 : σ) (r : Response)
    (hnet : net c.client req w = (RoundTrip.response r, w1))
    (hc : ¬ (200 ≤ r.StatusCode ∧ r.StatusCode ≤ 299)) :
    (Client.Do u net c req w).1.1.map Response.StatusCode = some r.StatusCode ∧
    (retryable (Client.Do u net c req w).1.2 = true ↔
      ∃ e : SpinnakerError, u (readAll r.Body).1 ⟨0, ""⟩ = (e, none) ∧ e.Status = 400) := by
  rcases hb : readAll r.Body with ⟨bodyString, body⟩
  rcases hu : u bodyString ⟨0, ""⟩ with ⟨e, _ | err⟩
  · have hv : validateResponse u r
        = ({ r with Body := body }, some (GoError.spinnakerError e)) := by
      unfold validateResponse
      rw [if_neg hc]
      simp [hb, hu]
    simp [Client.Do, Client.do', hnet, hv, retryable, GoError.isBadRequest]
  · have hv : validateResponse u r = ({ r with Body := body }, some err) := by
      unfold validateResponse
      rw [if_neg hc]
      simp [hb, hu]
    have hne := hjson bodyString ⟨0, ""⟩
    rw [hu] at hne
    cases err with
    | spinnakerError se => exact absurd rfl (hne se)
    | errorsNew m => simp [Client.Do, Client.do', hnet, hv, retryable, GoError.isBadRequest]
    | foreign m => simp [Client.Do, Client.do', hnet, hv, retryable, GoError.isBadRequest]

/-- The errors of a table decoder are not `*SpinnakerError` values. -/
theorem tableUnmarshal_error (table : List (String × SpinnakerError)) (body : String)
    (t se : SpinnakerError) :
    (tableUnmarshal table body t).2 ≠ some (GoError.spinnakerError se) := by
  unfold tableUnmarshal
  cases table.lookup body <;> simp

end RetryStatus

/-- C11, as stated, fails: the sixth executed request of a call gets a response with HTTP
code 400 whose body decodes to an envelope of status 400, and it is not retried: it is the
last event of the run and its error is returned. -/
theorem C11_counterexample_sixth_bad_request_not_retried :
    numberedBadRequests 5 5
      = RoundTrip.response
          (freshResponse 400 "\x7b\"status\":400,\"message\":\"sixth\"\x7d") ∧
    tableUnmarshal envelopes "\x7b\"status\":400,\"message\":\"sixth\"\x7d" ⟨0, ""⟩
      = (⟨400, "sixth"⟩, none) ∧
    (Client.DoWithRetry (tableUnmarshal envelopes) (scriptNet numberedBadRequests) plainClient
      (scriptFactory countingFactory) ⟨0, 0⟩).trace.getLast?
      = some (Event.execute 5 (some ⟨400, ⟨"", false, 1⟩⟩)
          (some (GoError.spinnakerError ⟨400, "sixth"⟩))) ∧
    executions (Client.DoWithRetry (tableUnmarshal envelopes) (scriptNet numberedBadRequests)
      plainClient (scriptFactory countingFactory) ⟨0, 0⟩).trace = 6 ∧
    (Client.DoWithRetry (tableUnmarshal envelopes) (scriptNet numberedBadRequests) plainClient
      (scriptFactory countingFactory) ⟨0, 0⟩).err
      = some (GoError.spinnakerError ⟨400, "sixth"⟩) := by
  refine ⟨?_, ?_, ?_, ?_, ?_⟩ <;> decide

/-- C11, amended: the status that decides whether `DoWithRetry` retries is the status field
decoded from the error body, not the HTTP status code, and the retry ceiling still applies.
For every executed request of a run (the decoder's errors not being `*SpinnakerError`
values): its recorded outcome is what `client.Do` returned; and whenever that outcome comes
from a response outside 200..299, the recorded response has the HTTP code of that response,
and the request is retried if and only if fewer than 5 requests were executed before it and
the body decodes to an envelope whose status field is 400. Retried means: the run goes on
with a sleep of `a² s` (`a` the number of requests executed before), a call of the request
factory and, when the factory returns a request, the execution of that request; when the
factory fails instead, the run ends with the factory's error. Not retried means: the run
ends with that request and returns its error. -/
theorem C11_envelope_status_decides_retry {σ Req Cert : Type}
    (u : Unmarshal SpinnakerError) (net : Net σ Req Cert) (c : Client Cert)
    (f : Factory σ Req) (w : σ)
    (hjson : ∀ body t se, (u body t).2 ≠ some (GoError.spinnakerError se))
    (pre post : List (Event Req)) (req : Req) (resp : Option Response)
    (err : Option GoError)
    (hsplit : (Client.DoWithRetry u net c f w).trace
      = pre ++ Event.execute req resp err :: post) :
    (∃ w1, (Client.Do u net c req w1).1 = (resp, err)) ∧
    (∀ w1 r w2, net c.client req w1 = (RoundTrip.response r, w2) →
      ¬ (200 ≤ r.StatusCode ∧ r.StatusCode ≤ 299) →
      (Client.Do u net c req w1).1 = (resp, err) →
      resp.map Response.StatusCode = some r.StatusCode ∧
      (post ≠ [] ↔ executions pre < 5 ∧
        ∃ e : SpinnakerError, u (readAll r.Body).1 ⟨0, ""⟩ = (e, none) ∧ e.Status = 400) ∧
      (post ≠ [] → ∃ req2 ferr rest,
        post = Event.sleep (executions pre * executions pre * Second)
          :: Event.createReq req2 ferr :: rest ∧
        (ferr = none → ∃ resp2 err2 rest2, rest = Event.execute req2 resp2 err2 :: rest2) ∧
        (∀ e2, ferr = some e2 →
          rest = [] ∧ (Client.DoWithRetry u net c f w).err = some e2)) ∧
      (post = [] → (Client.DoWithRetry u net c f w).err = err)) := by
  obtain ⟨hR, hlast, hdo⟩ := DoWithRetry_retries u net c f w
  refine ⟨hdo req resp err (by rw [hsplit]; simp), ?_⟩
  intro w1 r w2 hnet hc hdo1
  obtain ⟨hcode, hiff⟩ := Do_retryable_iff u net c hjson req w1 w2 r hnet hc
  rw [hdo1] at hcode hiff
  simp only at hcode hiff
  refine ⟨hcode, ⟨?_, ?_⟩, ?_, ?_⟩
  · intro hne
    obtain ⟨h1, h2, _⟩ := hR pre req resp err post hsplit hne
    exact ⟨h2, hiff.1 h1⟩
  · intro hr
    intro hnil
    subst hnil
    exact hlast pre req resp err hsplit ⟨hiff.2 hr.2, hr.1⟩
  · intro hne
    obtain ⟨req2, ferr, rest, h1, h2⟩ :=
      DoWithRetry_retriesAreComplete u net c f w pre req resp err post hsplit hne
    refine ⟨req2, ferr, rest, h1, h2, ?_⟩
    intro e2 he2
    subst he2
    have hcut : (Client.DoWithRetry u net c f w).trace
        = (pre ++ [Event.execute req resp err,
            Event.sleep (executions pre * executions pre * Second)])
          ++ Event.createReq req2 (some e2) :: rest := by
      rw [hsplit, h1]
      simp
    exact DoWithRetry_fatal_is_last u net c f w _ _ rest hcut rfl
  · intro hnil
    subst hnil
    obtain ⟨ev, h1, h2⟩ := DoWithRetry_err_is_last u net c f w
    rw [hsplit] at h1
    have h3 : some (Event.execute req resp err) = some ev := by simpa using h1
    cases h3
    exact h2

/-- C11, witness: the first answer is HTTP 503 with an envelope of status 400 and is retried
with a sleep, a factory call and the execution of the new request; the second is HTTP 400
with an envelope of status 404 and ends the run; an answer with HTTP 400 and an envelope
without a status ends the run after one attempt. -/
theorem C11_witness_status_mismatch :
    (([Event.sleep 0, Event.createReq 1 none,
        Event.execute 1 (some ⟨400, ⟨"", false, 1⟩⟩)
          (some (GoError.spinnakerError ⟨404, "not found"⟩))] : List (Event Nat)) ≠ [] ↔
      executions ([Event.createReq 0 none] : List (Event Nat)) < 5 ∧
      ∃ e : SpinnakerError,
        tableUnmarshal envelopesWithEmpty
          (readAll (freshResponse 503
            "\x7b\"status\":400,\"message\":\"first\"\x7d").Body).1 ⟨0, ""⟩ = (e, none) ∧
        e.Status = 400) ∧
    (∃ req2 ferr rest,
      ([Event.sleep 0, Event.createReq 1 none,
        Event.execute 1 (some ⟨400, ⟨"", false, 1⟩⟩)
          (some (GoError.spinnakerError ⟨404, "not found"⟩))] : List (Event Nat))
        = Event.sleep (executions ([Event.createReq 0 none] : List (Event Nat))
            * executions ([Event.createReq 0 none] : List (Event Nat)) * Second)
          :: Event.createReq req2 ferr :: rest ∧
      (ferr = none → ∃ resp2 err2 rest2, rest = Event.execute req2 resp2 err2 :: rest2) ∧
      (∀ e2, ferr = some e2 → rest = [] ∧
        (Client.DoWithRetry (tableUnmarshal envelopesWithEmpty) (scriptNet statusMismatch)
          plainClient (scriptFactory countingFactory) ⟨0, 0⟩).err = some e2)) ∧
    (Client.DoWithRetry (tableUnmarshal envelopesWithEmpty) (scriptNet statusMismatch)
      plainClient (scriptFactory countingFactory) ⟨0, 0⟩).err
      = some (GoError.spinnakerError ⟨404, "not found"⟩) ∧
    (Client.DoWithRetry (tableUnmarshal envelopesWithEmpty) (scriptNet statusOmitted)
      plainClient (scriptFactory countingFactory) ⟨0, 0⟩).trace
      = [Event.createReq 0 none,
         Event.execute 0 (some ⟨400, ⟨"", false, 1⟩⟩)
           (some (GoError.spinnakerError ⟨0, ""⟩))] :=
  ⟨((C11_envelope_status_decides_retry (tableUnmarshal envelopesWithEmpty)
      (scriptNet statusMismatch) plainClient (scriptFactory countingFactory) ⟨0, 0⟩
      (tableUnmarshal_error envelopesWithEmpty)
      [Event.createReq 0 none]
      [Event.sleep 0, Event.createReq 1 none,
        Event.execute 1 (some ⟨400, ⟨"", false, 1⟩⟩)
          (some (GoError.spinnakerError ⟨404, "not found"⟩))]
      0 (some ⟨503, ⟨"", false, 1⟩⟩) (some (GoError.spinnakerError ⟨400, "first"⟩))
      (by decide)).2 ⟨1, 0⟩
      (freshResponse 503 "\x7b\"status\":400,\"message\":\"first\"\x7d") ⟨1, 1⟩
      rfl (by decide) (by decide)).2.1,
   ((C11_envelope_status_decides_retry (tableUnmarshal envelopesWithEmpty)
      (scriptNet statusMismatch) plainClient (scriptFactory countingFactory) ⟨0, 0⟩
      (tableUnmarshal_error envelopesWithEmpty)
      [Event.createReq 0 none]
      [Event.sleep 0, Event.createReq 1 none,
        Event.execute 1 (some ⟨400, ⟨"", false, 1⟩⟩)
          (some (GoError.spinnakerError ⟨404, "not found"⟩))]
      0 (some ⟨503, ⟨"", false, 1⟩⟩) (some (GoError.spinnakerError ⟨400, "first"⟩))
      (by decide)).2 ⟨1, 0⟩
      (freshResponse 503 "\x7b\"status\":400,\"message\":\"first\"\x7d") ⟨1, 1⟩
      rfl (by decide) (by decide)).2.2.1 (by decide),
   ((C11_envelope_status_decides_retry (tableUnmarshal envelopesWithEmpty)
      (scriptNet statusMismatch) plainClient (scriptFactory countingFactory) ⟨0, 0⟩
      (tableUnmarshal_error envelopesWithEmpty)
      [Event.createReq 0 none,
        Event.execute 0 (some ⟨503, ⟨"", false, 1⟩⟩)
          (some (GoError.spinnakerError ⟨400, "first"⟩)),
        Event.sleep 0, Event.createReq 1 none]
      []
      1 (some ⟨400, ⟨"", false, 1⟩⟩) (some (GoError.spinnakerError ⟨404, "not found"⟩))
      (by decide)).2 ⟨2, 1⟩
      (freshResponse 400 "\x7b\"status\":404,\"message\":\"not found\"\x7d") ⟨2, 2⟩
      rfl (by decide) (by decide)).2.2.2 rfl,
   by decide⟩

end client
